import Mathlib

set_option maxHeartbeats 1000000

/-!
Verification development for the ec2-start-stop scheduled job
(`src/ec2-start-stop.py`).  The Python source is shallowly embedded:
pure fragments become Lean functions, the EC2 / S3 side effects become an
explicit event trace (`Ev`), and Python exceptions become `Except` values.
-/

namespace Ec2StartStop

/-! ### Python string primitives

`subStart n h` models "the list `n` is an initial segment of `h`";
`pyIn n h` models the Python substring test `n in h` (for strings);
`pySplit sep s` models `s.split(sep)` for a one-character separator;
`pyInt s` models `int(s)` restricted to plain digit strings (on any other
input the model treats `int` as raising, returning `none`; the claims only
exercise digit strings). -/

def subStart : List Char → List Char → Bool
  | [], _ => true
  | _ :: _, [] => false
  | a :: as, b :: bs => a == b && subStart as bs

def pyIn (needle : List Char) : List Char → Bool
  | [] => needle.isEmpty
  | c :: rest => subStart needle (c :: rest) || pyIn needle rest

/-- Python `needle in hay` for strings (substring containment). -/
def pyInStr (needle hay : String) : Bool :=
  pyIn needle.toList hay.toList

/-- Python `x in l` for a list of strings (membership by equality). -/
def pyElem (x : String) : List String → Bool
  | [] => false
  | y :: ys => x == y || pyElem x ys

/-- Python `s.split(sep)` with a single-character separator. -/
def pySplit (sep : Char) : List Char → List (List Char)
  | [] => [[]]
  | c :: rest =>
    if c == sep then [] :: pySplit sep rest
    else
      match pySplit sep rest with
      | [] => [[c]]
      | p :: ps => (c :: p) :: ps

def digitsToNat (cs : List Char) : Nat :=
  cs.foldl (fun n c => n * 10 + (c.toNat - ('0').toNat)) 0

/-- Python `int(s)`, modelled on plain digit strings; anything else raises. -/
def pyInt (cs : List Char) : Option Nat :=
  if cs = [] then none
  else if cs.all Char.isDigit then some (digitsToNat cs)
  else none

/-! ### Data model

An instance snapshot as returned by `describe_instances`: reservations,
each holding instances, each with an id and (possibly missing) tags.
`tags = none` models an instance dictionary without the `'Tags'` key, in
which case `instance['Tags']` raises `KeyError`. -/

structure Tag where
  key : String
  value : String
deriving DecidableEq

structure EC2Inst where
  instanceId : String
  tags : Option (List Tag)
deriving DecidableEq

structure Reservation where
  instances : List EC2Inst
deriving DecidableEq

structure Snapshot where
  reservations : List Reservation
deriving DecidableEq

structure ScheduleCfg where
  allDay : String
  halfDay : String
deriving DecidableEq

structure TimesCfg where
  startTime : String
  stopTime : String
deriving DecidableEq

structure Config where
  schedule : ScheduleCfg
  stop_untagged_instances : String
  times : TimesCfg
  role_arns : List String
deriving DecidableEq

/-- Observable API calls issued by the job.  The constructors record the
call site: `startCall` / `stopCall` are the `action_on_instances` paths,
`untaggedStopCall` is `stop_untagged_instances`, `describeCall` is
`describe_instances` with its instance-state filter. -/
inductive Ev where
  | describeCall (state : String)
  | startCall (ids : List String)
  | stopCall (ids : List String)
  | untaggedStopCall (ids : List String)
deriving DecidableEq

/-- Model of `stop_untagged_instances(untagged_instance_ids, temporary_user)`:
logs and issues one `stop_instances` call (its own failure is caught and
logged, so the model records the call and continues). -/
def stop_untagged_instances (ids : List String) : List Ev :=
  [Ev.untaggedStopCall ids]

/-- Model of `action_on_instances(client_method, instance_ids, action)`: issues the
start/stop call only when the id list is non-empty (otherwise it only
logs); its own failure is caught. -/
def action_on_instances (method : List String → Ev) (ids : List String) : List Ev :=
  if ids.isEmpty then [] else [method ids]

/-! ### The classifier `categorise_instances`

Mutable state of one classification pass: the two result lists, the
accumulated `untagged_instances` list and the emitted calls.  The
per-reservation `tag_list` is threaded separately because it is reset at
the top of the reservation loop. -/

structure CatSt where
  action : List String
  noAction : List String
  untagged : List String
  evs : List Ev
deriving DecidableEq

/-- The inner `for tag in instance['Tags']` loop of the `Schedule` branch:
every tag whose key *contains* `"Schedule"` as a substring is inspected,
and each match appends the reservation's lead id to one of the two lists
(value checks ordered: empty, `allDay`, `halfDay`, otherwise nothing). -/
def scheduleLoop (cfg : Config) (lead : String) : List Tag →
    List String × List String → List String × List String
  | [], acc => acc
  | t :: ts, (act, noAct) =>
    if pyInStr "Schedule" t.key then
      if t.value = "" then scheduleLoop cfg lead ts (act, noAct ++ [lead])
      else if t.value = cfg.schedule.allDay then scheduleLoop cfg lead ts (act, noAct ++ [lead])
      else if t.value = cfg.schedule.halfDay then scheduleLoop cfg lead ts (act ++ [lead], noAct)
      else scheduleLoop cfg lead ts (act, noAct)
    else scheduleLoop cfg lead ts (act, noAct)

/-- The reservation's lead instance id, `reservation['Instances'][0]['InstanceId']`.
(The Python expression is only evaluated inside the instance loop, hence
only when the instance list is non-empty; the `""` default is never used
by the model in that situation.) -/
def leadId (r : Reservation) : String :=
  match r.instances.head? with
  | some i => i.instanceId
  | none => ""

/-- The `for instance in reservation['Instances']` loop.  `tagList` is the
reservation-scoped `tag_list`, which accumulates the tag keys of every
instance seen so far in this reservation.  An instance without a `'Tags'`
key raises (`Except.error` carrying the events emitted so far). -/
def instLoop (cfg : Config) (lead : String) : List EC2Inst → List String → CatSt →
    Except (List Ev) (List String × CatSt)
  | [], tagList, st => .ok (tagList, st)
  | inst :: rest, tagList, st =>
    match inst.tags with
    | none => .error st.evs
    | some tags =>
      let tagList := tagList ++ tags.map Tag.key
      if pyElem "NoShutdown" tagList then
        instLoop cfg lead rest tagList { st with noAction := st.noAction ++ [lead] }
      else if pyElem "Schedule" tagList then
        let p := scheduleLoop cfg lead tags (st.action, st.noAction)
        instLoop cfg lead rest tagList { st with action := p.1, noAction := p.2 }
      else
        if pyInStr "True" cfg.stop_untagged_instances then
          let u := st.untagged ++ [inst.instanceId]
          instLoop cfg lead rest tagList
            { st with untagged := u, evs := st.evs ++ stop_untagged_instances u }
        else
          instLoop cfg lead rest tagList st

/-- The `for reservation in data['Reservations']` loop: resets `tag_list`
and runs the instance loop for each reservation. -/
def resLoop (cfg : Config) : List Reservation → CatSt → Except (List Ev) CatSt
  | [], st => .ok st
  | r :: rs, st =>
    match instLoop cfg (leadId r) r.instances [] st with
    | .error e => .error e
    | .ok (_, st') => resLoop cfg rs st'

/-- Model of `categorise_instances(data, config, temporary_user)`.  Returns the
emitted calls together with `some (action_required, no_action_required)`,
or `none` when the function returns Python `None`: either `data` was falsy
(`if data:` fails and control falls off the end) or an exception was
raised and caught by the blanket handler. -/
def categorise_instances (data : Option Snapshot) (cfg : Config) :
    List Ev × Option (List String × List String) :=
  match data with
  | none => ([], none)
  | some snap =>
    match resLoop cfg snap.reservations ⟨[], [], [], []⟩ with
    | .ok st => (st.evs, some (st.action, st.noAction))
    | .error evs => (evs, none)

/-- The ids carried by one event when it is an untagged-stop call. -/
def evUntaggedIds : Ev → List String
  | Ev.untaggedStopCall ids => ids
  | _ => []

/-- All ids ever submitted to an untagged-stop call in a trace. -/
def untaggedIdsOf (evs : List Ev) : List String :=
  (evs.map evUntaggedIds).flatten

/-- Instance ids of one reservation. -/
def reservIds (r : Reservation) : List String :=
  r.instances.map EC2Inst.instanceId

/-- All instance ids of a snapshot, reservation by reservation. -/
def snapIds (s : Snapshot) : List String :=
  (s.reservations.map reservIds).flatten

/-- Every instance dictionary of the snapshot has a `'Tags'` key. -/
def TagsPresent (s : Snapshot) : Prop :=
  ∀ r ∈ s.reservations, ∀ i ∈ r.instances, i.tags ≠ none

/-! ### Dates and times (`datetime` model)

Naive `datetime.datetime` values at second granularity, in the proleptic
Gregorian calendar used by Python's `datetime` (`toordinal` of
0001-01-01 is 1, and that day is a Monday, so `weekday = (ordinal - 1) % 7`
with Monday = 0). -/

structure PyDatetime where
  year : Nat
  month : Nat
  day : Nat
  hour : Nat
  minute : Nat
  second : Nat
deriving DecidableEq

def isLeap (y : Nat) : Bool :=
  (y % 4 == 0 && y % 100 != 0) || y % 400 == 0

/-- Days in the months strictly before month `m` of year `y`. -/
def daysBeforeMonth (y m : Nat) : Nat :=
  let base := [0, 31, 59, 90, 120, 151, 181, 212, 243, 273, 304, 334].getD (m - 1) 0
  if 2 < m && isLeap y then base + 1 else base

/-- Python `datetime.date(y, m, d).toordinal()`. -/
def ordinalOf (y m d : Nat) : Nat :=
  365 * (y - 1) + ((y - 1) / 4 - (y - 1) / 100 + (y - 1) / 400) + daysBeforeMonth y m + d

/-- Weekday (Monday = 0) of an ordinal day number. -/
def weekdayOfOrd (o : Nat) : Nat := (o - 1) % 7

/-- Total order key of a naive datetime, in seconds: `datetime` comparison
is lexicographic on (date, time of day). -/
def timeKey (dt : PyDatetime) : Nat :=
  ordinalOf dt.year dt.month dt.day * 86400 + dt.hour * 3600 + dt.minute * 60 + dt.second

/-- Python `now.time()` as seconds of the day (order-isomorphic to `datetime.time`). -/
def timeOfDay (dt : PyDatetime) : Nat :=
  dt.hour * 3600 + dt.minute * 60 + dt.second

def daysInMonth (y m : Nat) : Nat :=
  if m = 2 then (if isLeap y then 29 else 28)
  else [31, 28, 31, 30, 31, 30, 31, 31, 30, 31, 30, 31].getD (m - 1) 31

/-- Python `now + datetime.timedelta(hours=1)` with civil rollover. -/
def addOneHour (dt : PyDatetime) : PyDatetime :=
  if dt.hour + 1 < 24 then { dt with hour := dt.hour + 1 }
  else if dt.day + 1 ≤ daysInMonth dt.year dt.month then
    { dt with hour := 0, day := dt.day + 1 }
  else if dt.month + 1 ≤ 12 then
    { dt with hour := 0, day := 1, month := dt.month + 1 }
  else
    { dt with hour := 0, day := 1, month := 1, year := dt.year + 1 }

/-- The `dston` of `is_dst`: `datetime(year, 4, 1)` minus `weekday() + 1` days
(as an ordinal day number; the subtracted datetime is at midnight). -/
def dstonOf (y : Nat) : Nat :=
  ordinalOf y 4 1 - (weekdayOfOrd (ordinalOf y 4 1) + 1)

/-- The `dstoff` of `is_dst`: `datetime(year, 11, 1)` minus `weekday() + 1` days. -/
def dstoffOf (y : Nat) : Nat :=
  ordinalOf y 11 1 - (weekdayOfOrd (ordinalOf y 11 1) + 1)

/-- Model of `is_dst(now)`: builds `datetime(year, 4, 1)` and `datetime(year, 11, 1)`,
subtracts `weekday() + 1` days from each, and adds an hour (with label
`"GMT +1"`) exactly when `dston <= now < dstoff`. -/
def is_dst (now : PyDatetime) : PyDatetime × String :=
  if dstonOf now.year * 86400 ≤ timeKey now ∧ timeKey now < dstoffOf now.year * 86400 then
    (addOneHour now, "GMT +1")
  else
    (now, "GMT")

/-! ### `get_instance_ids`, `start_stop` -/

/-- The per-account EC2 environment: what `describe_instances` returns for
a given instance-state filter (`Except.error` models the call raising). -/
def EC2Env : Type := String → Except Unit Snapshot

/-- Model of `get_instance_ids(temporary_user, config, state, now, tz)`: describes
instances filtered by `state`, then classifies.  Its blanket handler
catches both a failing describe call and the `TypeError` raised when the
classifier's `None` result is destructured into two names, so the
function itself always returns (possibly Python `None`, modelled `none`). -/
def get_instance_ids (env : EC2Env) (cfg : Config) (state : String) :
    List Ev × Option (List String × List String) :=
  match env state with
  | .error _ => ([], none)
  | .ok data =>
    let p := categorise_instances (some data) cfg
    (Ev.describeCall state :: p.1, p.2)

/-- Model of `start_stop(now, start, stop, temporary_user, config, tz)`: the
dispatcher.  It has no exception handler: destructuring an absent
`get_instance_ids` result raises (`Except.error`). -/
def start_stop (now : PyDatetime) (start stop : Nat) (env : EC2Env) (cfg : Config) :
    List Ev × Except Unit Unit :=
  if start ≤ timeOfDay now ∧ timeOfDay now < stop then
    match get_instance_ids env cfg "stopped" with
    | (evs, some (a, _)) => (evs ++ action_on_instances Ev.startCall a, .ok ())
    | (evs, none) => (evs, .error ())
  else if stop ≤ timeOfDay now then
    match get_instance_ids env cfg "running" with
    | (evs, some (a, _)) => (evs ++ action_on_instances Ev.stopCall a, .ok ())
    | (evs, none) => (evs, .error ())
  else
    ([], .ok ())

/-! ### `convert_to_datetime`, `is_weekday`, `lambda_handler` -/

/-- Model of `convert_to_datetime(config)`: parses `"H,M"` start/stop strings into
time-of-day values (seconds) and returns the DST-adjusted now and label.
Any parse failure or out-of-range `datetime.time` argument raises, which
the blanket handler turns into `None`. -/
def convert_to_datetime (times : TimesCfg) (current : PyDatetime) :
    Option (Nat × Nat × PyDatetime × String) :=
  let p := is_dst current
  match pySplit ',' times.startTime.toList, pySplit ',' times.stopTime.toList with
  | [sh, sm], [eh, em] =>
    match pyInt sh, pyInt sm, pyInt eh, pyInt em with
    | some a, some b, some c, some d =>
      if a < 24 ∧ b < 60 ∧ c < 24 ∧ d < 60 then
        some (a * 3600 + b * 60, c * 3600 + d * 60, p.1, p.2)
      else none
    | _, _, _, _ => none
  | _, _ => none

/-- Model of `is_weekday(day, halfDay)`: splits `halfDay` on `'x'` into exactly two
parts, converts the second with `int`, and returns `day <= int(days) - 1`.
`none` models the unpacking or `int` conversion raising. -/
def is_weekday (day : Nat) (halfDay : String) : Option Bool :=
  match pySplit 'x' halfDay.toList with
  | [_, d] =>
    match pyInt d with
    | some n => some (decide ((day : Int) ≤ (n : Int) - 1))
    | none => none
  | _ => none

/-- The `for role_arn in config['role_arns']` loop of `lambda_handler`.
Per account: split the ARN on `':'` and index part 4 (raising if absent),
recompute the times, run `start_stop`.  An exception from any of these
aborts the loop (it propagates out of the `for`). -/
def accountLoop (cfg : Config) (current : PyDatetime) (env : String → EC2Env) :
    List String → List Ev → List Ev × Except Unit Unit
  | [], evs => (evs, .ok ())
  | arn :: rest, evs =>
    match (pySplit ':' arn.toList)[4]? with
    | none => (evs, .error ())
    | some _ =>
      match convert_to_datetime cfg.times current with
      | none => (evs, .error ())
      | some (startT, stopT, now, _tz) =>
        match start_stop now startT stopT (env arn) cfg with
        | (e2, .ok _) => accountLoop cfg current env rest (evs ++ e2)
        | (e2, .error _) => (evs ++ e2, .error ())

/-- The body of `lambda_handler`'s `try` block.  `cfgO = none` models a
failed config fetch (indexing into `None` then raises); a non-`some true`
weekday gate skips the account loop. -/
def lambda_handler_body (day : Nat) (cfgO : Option Config) (current : PyDatetime)
    (env : String → EC2Env) : List Ev × Except Unit Unit :=
  match cfgO with
  | none => ([], .error ())
  | some cfg =>
    match is_weekday day cfg.schedule.halfDay with
    | none => ([], .error ())
    | some false => ([], .ok ())
    | some true => accountLoop cfg current env cfg.role_arns []

/-- Model of `lambda_handler(event, context)`: the whole body runs under a blanket
`except` that logs, so the invocation always ends without raising; only
the calls made before any failure are observable. -/
def lambda_handler (day : Nat) (cfgO : Option Config) (current : PyDatetime)
    (env : String → EC2Env) : List Ev :=
  (lambda_handler_body day cfgO current env).1

/-! ### Lemmas: Python list membership and traces -/

theorem pyElem_iff_mem (x : String) (l : List String) : pyElem x l = true ↔ x ∈ l := by
  induction l with
  | nil => simp [pyElem]
  | cons y ys ih => simp [pyElem, ih]

theorem pyElem_append (x : String) (a b : List String) :
    pyElem x (a ++ b) = (pyElem x a || pyElem x b) := by
  induction a with
  | nil => simp [pyElem]
  | cons y ys ih => simp [pyElem, ih, Bool.or_assoc]

theorem untaggedIdsOf_append (a b : List Ev) :
    untaggedIdsOf (a ++ b) = untaggedIdsOf a ++ untaggedIdsOf b := by
  simp [untaggedIdsOf]

/-! ### Lemmas: the inner Schedule-tag loop -/

theorem scheduleLoop_cons_nokey (cfg : Config) (lead : String) (t : Tag) (ts : List Tag)
    (a n : List String) (h1 : pyInStr "Schedule" t.key = false) :
    scheduleLoop cfg lead (t :: ts) (a, n) = scheduleLoop cfg lead ts (a, n) := by
  simp [scheduleLoop, h1]

theorem scheduleLoop_cons_empty (cfg : Config) (lead : String) (t : Tag) (ts : List Tag)
    (a n : List String) (h1 : pyInStr "Schedule" t.key = true) (h2 : t.value = "") :
    scheduleLoop cfg lead (t :: ts) (a, n) = scheduleLoop cfg lead ts (a, n ++ [lead]) := by
  simp [scheduleLoop, h1, h2]

theorem scheduleLoop_cons_all (cfg : Config) (lead : String) (t : Tag) (ts : List Tag)
    (a n : List String) (h1 : pyInStr "Schedule" t.key = true) (h2 : t.value ≠ "")
    (h3 : t.value = cfg.schedule.allDay) :
    scheduleLoop cfg lead (t :: ts) (a, n) = scheduleLoop cfg lead ts (a, n ++ [lead]) := by
  simp only [scheduleLoop]
  rw [if_pos h1, if_neg h2, if_pos h3]

theorem scheduleLoop_cons_half (cfg : Config) (lead : String) (t : Tag) (ts : List Tag)
    (a n : List String) (h1 : pyInStr "Schedule" t.key = true) (h2 : t.value ≠ "")
    (h3 : t.value ≠ cfg.schedule.allDay) (h4 : t.value = cfg.schedule.halfDay) :
    scheduleLoop cfg lead (t :: ts) (a, n) = scheduleLoop cfg lead ts (a ++ [lead], n) := by
  simp only [scheduleLoop]
  rw [if_pos h1, if_neg h2, if_neg h3, if_pos h4]

theorem scheduleLoop_cons_other (cfg : Config) (lead : String) (t : Tag) (ts : List Tag)
    (a n : List String) (h1 : pyInStr "Schedule" t.key = true) (h2 : t.value ≠ "")
    (h3 : t.value ≠ cfg.schedule.allDay) (h4 : t.value ≠ cfg.schedule.halfDay) :
    scheduleLoop cfg lead (t :: ts) (a, n) = scheduleLoop cfg lead ts (a, n) := by
  simp only [scheduleLoop]
  rw [if_pos h1, if_neg h2, if_neg h3, if_neg h4]

theorem scheduleLoop_acc (cfg : Config) (lead : String) (tags : List Tag) :
    ∀ a n, scheduleLoop cfg lead tags (a, n) =
      (a ++ (scheduleLoop cfg lead tags ([], [])).1,
       n ++ (scheduleLoop cfg lead tags ([], [])).2) := by
  induction tags with
  | nil => intro a n; simp [scheduleLoop]
  | cons t ts ih =>
    intro a n
    by_cases h1 : pyInStr "Schedule" t.key = true
    · by_cases h2 : t.value = ""
      · rw [scheduleLoop_cons_empty cfg lead t ts a n h1 h2,
            scheduleLoop_cons_empty cfg lead t ts [] [] h1 h2,
            ih (a) (n ++ [lead]), ih [] ([] ++ [lead])]
        simp
      · by_cases h3 : t.value = cfg.schedule.allDay
        · rw [scheduleLoop_cons_all cfg lead t ts a n h1 h2 h3,
              scheduleLoop_cons_all cfg lead t ts [] [] h1 h2 h3,
              ih (a) (n ++ [lead]), ih [] ([] ++ [lead])]
          simp
        · by_cases h4 : t.value = cfg.schedule.halfDay
          · rw [scheduleLoop_cons_half cfg lead t ts a n h1 h2 h3 h4,
                scheduleLoop_cons_half cfg lead t ts [] [] h1 h2 h3 h4,
                ih (a ++ [lead]) n, ih ([] ++ [lead]) []]
            simp
          · rw [scheduleLoop_cons_other cfg lead t ts a n h1 h2 h3 h4,
                scheduleLoop_cons_other cfg lead t ts [] [] h1 h2 h3 h4,
                ih a n]
    · have h1f : pyInStr "Schedule" t.key = false := by
        simpa using h1
      rw [scheduleLoop_cons_nokey cfg lead t ts a n h1f,
          scheduleLoop_cons_nokey cfg lead t ts [] [] h1f, ih a n]

theorem scheduleLoop_mem (cfg : Config) (lead : String) (tags : List Tag) :
    (∀ x ∈ (scheduleLoop cfg lead tags ([], [])).1, x = lead) ∧
    (∀ x ∈ (scheduleLoop cfg lead tags ([], [])).2, x = lead) := by
  induction tags with
  | nil => simp [scheduleLoop]
  | cons t ts ih =>
    by_cases h1 : pyInStr "Schedule" t.key = true
    · by_cases h2 : t.value = ""
      · rw [scheduleLoop_cons_empty cfg lead t ts [] [] h1 h2,
            scheduleLoop_acc cfg lead ts ([]) ([] ++ [lead])]
        constructor
        · intro x hx; simp at hx; exact ih.1 x hx
        · intro x hx; simp at hx
          rcases hx with h | h
          · exact h
          · exact ih.2 x h
      · by_cases h3 : t.value = cfg.schedule.allDay
        · rw [scheduleLoop_cons_all cfg lead t ts [] [] h1 h2 h3,
              scheduleLoop_acc cfg lead ts ([]) ([] ++ [lead])]
          constructor
          · intro x hx; simp at hx; exact ih.1 x hx
          · intro x hx; simp at hx
            rcases hx with h | h
            · exact h
            · exact ih.2 x h
        · by_cases h4 : t.value = cfg.schedule.halfDay
          · rw [scheduleLoop_cons_half cfg lead t ts [] [] h1 h2 h3 h4,
                scheduleLoop_acc cfg lead ts ([] ++ [lead]) ([])]
            constructor
            · intro x hx; simp at hx
              rcases hx with h | h
              · exact h
              · exact ih.1 x h
            · intro x hx; simp at hx; exact ih.2 x hx
          · rw [scheduleLoop_cons_other cfg lead t ts [] [] h1 h2 h3 h4]
            exact ih
    · have h1f : pyInStr "Schedule" t.key = false := by
        simpa using h1
      rw [scheduleLoop_cons_nokey cfg lead t ts [] [] h1f]
      exact ih

theorem scheduleLoop_nomatch (cfg : Config) (lead : String) (tags : List Tag)
    (h : ∀ t ∈ tags, pyInStr "Schedule" t.key = false) :
    ∀ p, scheduleLoop cfg lead tags p = p := by
  induction tags with
  | nil => intro p; obtain ⟨a, n⟩ := p; simp [scheduleLoop]
  | cons t ts ih =>
    intro p; obtain ⟨a, n⟩ := p
    have ht : pyInStr "Schedule" t.key = false := h t (by simp)
    rw [scheduleLoop_cons_nokey cfg lead t ts a n ht]
    exact ih (fun u hu => h u (by simp [hu])) (a, n)

theorem scheduleLoop_tri (cfg : Config) (lead : String) (tags : List Tag)
    (h : tags.countP (fun t => pyInStr "Schedule" t.key) ≤ 1) :
    scheduleLoop cfg lead tags ([], []) = ([], []) ∨
    scheduleLoop cfg lead tags ([], []) = ([lead], []) ∨
    scheduleLoop cfg lead tags ([], []) = ([], [lead]) := by
  induction tags with
  | nil => left; simp [scheduleLoop]
  | cons t ts ih =>
    rw [List.countP_cons] at h
    by_cases h1 : pyInStr "Schedule" t.key = true
    · have hz : ts.countP (fun t => pyInStr "Schedule" t.key) = 0 := by
        simp only [h1, if_pos] at h
        omega
      have hnm : ∀ u ∈ ts, pyInStr "Schedule" u.key = false := by
        intro u hu
        have := List.countP_eq_zero.mp hz u hu
        simpa using this
      by_cases h2 : t.value = ""
      · right; right
        rw [scheduleLoop_cons_empty cfg lead t ts [] [] h1 h2]
        exact scheduleLoop_nomatch cfg lead ts hnm _
      · by_cases h3 : t.value = cfg.schedule.allDay
        · right; right
          rw [scheduleLoop_cons_all cfg lead t ts [] [] h1 h2 h3]
          exact scheduleLoop_nomatch cfg lead ts hnm _
        · by_cases h4 : t.value = cfg.schedule.halfDay
          · right; left
            rw [scheduleLoop_cons_half cfg lead t ts [] [] h1 h2 h3 h4]
            exact scheduleLoop_nomatch cfg lead ts hnm _
          · left
            rw [scheduleLoop_cons_other cfg lead t ts [] [] h1 h2 h3 h4]
            exact scheduleLoop_nomatch cfg lead ts hnm _
    · have h1f : pyInStr "Schedule" t.key = false := by
        simpa using h1
      have hle : ts.countP (fun t => pyInStr "Schedule" t.key) ≤ 1 := by
        omega
      rw [scheduleLoop_cons_nokey cfg lead t ts [] [] h1f]
      exact ih hle

/-! ### Lemmas: the instance loop -/

theorem instLoop_nil (cfg : Config) (lead : String) (tagList : List String) (st : CatSt) :
    instLoop cfg lead [] tagList st = .ok (tagList, st) := rfl

theorem instLoop_cons_notags (cfg : Config) (lead : String) (inst : EC2Inst)
    (rest : List EC2Inst) (tagList : List String) (st : CatSt) (h : inst.tags = none) :
    instLoop cfg lead (inst :: rest) tagList st = .error st.evs := by
  simp [instLoop, h]

theorem instLoop_cons_noShut (cfg : Config) (lead : String) (inst : EC2Inst)
    (rest : List EC2Inst) (tagList : List String) (st : CatSt) (ts : List Tag)
    (h : inst.tags = some ts)
    (hN : pyElem "NoShutdown" (tagList ++ ts.map Tag.key) = true) :
    instLoop cfg lead (inst :: rest) tagList st =
      instLoop cfg lead rest (tagList ++ ts.map Tag.key)
        { st with noAction := st.noAction ++ [lead] } := by
  simp [instLoop, h, hN]

theorem instLoop_cons_sched (cfg : Config) (lead : String) (inst : EC2Inst)
    (rest : List EC2Inst) (tagList : List String) (st : CatSt) (ts : List Tag)
    (h : inst.tags = some ts)
    (hN : pyElem "NoShutdown" (tagList ++ ts.map Tag.key) = false)
    (hS : pyElem "Schedule" (tagList ++ ts.map Tag.key) = true) :
    instLoop cfg lead (inst :: rest) tagList st =
      instLoop cfg lead rest (tagList ++ ts.map Tag.key)
        { st with action := (scheduleLoop cfg lead ts (st.action, st.noAction)).1,
                  noAction := (scheduleLoop cfg lead ts (st.action, st.noAction)).2 } := by
  simp [instLoop, h, hN, hS]

theorem instLoop_cons_untag (cfg : Config) (lead : String) (inst : EC2Inst)
    (rest : List EC2Inst) (tagList : List String) (st : CatSt) (ts : List Tag)
    (h : inst.tags = some ts)
    (hN : pyElem "NoShutdown" (tagList ++ ts.map Tag.key) = false)
    (hS : pyElem "Schedule" (tagList ++ ts.map Tag.key) = false)
    (hT : pyInStr "True" cfg.stop_untagged_instances = true) :
    instLoop cfg lead (inst :: rest) tagList st =
      instLoop cfg lead rest (tagList ++ ts.map Tag.key)
        { st with untagged := st.untagged ++ [inst.instanceId],
                  evs := st.evs ++ [Ev.untaggedStopCall (st.untagged ++ [inst.instanceId])] } := by
  simp [instLoop, h, hN, hS, hT, stop_untagged_instances]

theorem instLoop_cons_plain (cfg : Config) (lead : String) (inst : EC2Inst)
    (rest : List EC2Inst) (tagList : List String) (st : CatSt) (ts : List Tag)
    (h : inst.tags = some ts)
    (hN : pyElem "NoShutdown" (tagList ++ ts.map Tag.key) = false)
    (hS : pyElem "Schedule" (tagList ++ ts.map Tag.key) = false)
    (hT : pyInStr "True" cfg.stop_untagged_instances = false) :
    instLoop cfg lead (inst :: rest) tagList st =
      instLoop cfg lead rest (tagList ++ ts.map Tag.key) st := by
  simp [instLoop, h, hN, hS, hT]

/-- Combined facts about one run of the instance loop: where elements of
the final lists can come from, monotonicity of the three lists, and that
every id in an emitted untagged-stop payload ends up in the final
`untagged_instances` list. -/
theorem instLoop_facts (cfg : Config) (lead : String) :
    ∀ (insts : List EC2Inst) (tagList : List String) (st : CatSt)
      (tl' : List String) (st' : CatSt),
    instLoop cfg lead insts tagList st = .ok (tl', st') →
    (∀ x ∈ st'.action, x ∈ st.action ∨ (x = lead ∧ insts ≠ [])) ∧
    (∀ x ∈ st'.noAction, x ∈ st.noAction ∨ (x = lead ∧ insts ≠ [])) ∧
    (∀ x ∈ st'.untagged, x ∈ st.untagged ∨ ∃ i ∈ insts, x = i.instanceId) ∧
    (∀ x ∈ st.action, x ∈ st'.action) ∧
    (∀ x ∈ st.noAction, x ∈ st'.noAction) ∧
    (∀ x ∈ st.untagged, x ∈ st'.untagged) ∧
    (∀ x ∈ untaggedIdsOf st'.evs, x ∈ untaggedIdsOf st.evs ∨ x ∈ st'.untagged) := by
  intro insts
  induction insts with
  | nil =>
    intro tagList st tl' st' h
    rw [instLoop_nil] at h
    simp only [Except.ok.injEq, Prod.mk.injEq] at h
    obtain ⟨h1, h2⟩ := h
    subst h2
    refine ⟨?_, ?_, ?_, ?_, ?_, ?_, ?_⟩ <;> intro x hx <;> simp_all
  | cons inst rest ih =>
    intro tagList st tl' st' h
    cases htags : inst.tags with
    | none =>
      rw [instLoop_cons_notags cfg lead inst rest tagList st htags] at h
      cases h
    | some ts =>
      by_cases hN : pyElem "NoShutdown" (tagList ++ ts.map Tag.key) = true
      · rw [instLoop_cons_noShut cfg lead inst rest tagList st ts htags hN] at h
        obtain ⟨c1, c2, c3, c4, c5, c6, c7⟩ := ih _ _ _ _ h
        refine ⟨?_, ?_, ?_, ?_, ?_, ?_, ?_⟩
        · intro x hx
          rcases c1 x hx with hx' | hx'
          · exact Or.inl hx'
          · exact Or.inr ⟨hx'.1, by simp⟩
        · intro x hx
          rcases c2 x hx with hx' | hx'
          · simp only [List.mem_append, List.mem_singleton] at hx'
            rcases hx' with hx'' | hx''
            · exact Or.inl hx''
            · exact Or.inr ⟨hx'', by simp⟩
          · exact Or.inr ⟨hx'.1, by simp⟩
        · intro x hx
          rcases c3 x hx with hx' | ⟨i, hi, hx'⟩
          · exact Or.inl hx'
          · exact Or.inr ⟨i, by simp [hi], hx'⟩
        · intro x hx; exact c4 x hx
        · intro x hx; exact c5 x (by simp [hx])
        · intro x hx; exact c6 x hx
        · exact c7
      · have hNf : pyElem "NoShutdown" (tagList ++ ts.map Tag.key) = false := by
          simpa using hN
        by_cases hS : pyElem "Schedule" (tagList ++ ts.map Tag.key) = true
        · rw [instLoop_cons_sched cfg lead inst rest tagList st ts htags hNf hS] at h
          obtain ⟨c1, c2, c3, c4, c5, c6, c7⟩ := ih _ _ _ _ h
          rw [scheduleLoop_acc cfg lead ts st.action st.noAction] at c1 c2 c4 c5
          refine ⟨?_, ?_, ?_, ?_, ?_, ?_, ?_⟩
          · intro x hx
            rcases c1 x hx with hx' | hx'
            · simp only [List.mem_append] at hx'
              rcases hx' with hx'' | hx''
              · exact Or.inl hx''
              · exact Or.inr ⟨(scheduleLoop_mem cfg lead ts).1 x hx'', by simp⟩
            · exact Or.inr ⟨hx'.1, by simp⟩
          · intro x hx
            rcases c2 x hx with hx' | hx'
            · simp only [List.mem_append] at hx'
              rcases hx' with hx'' | hx''
              · exact Or.inl hx''
              · exact Or.inr ⟨(scheduleLoop_mem cfg lead ts).2 x hx'', by simp⟩
            · exact Or.inr ⟨hx'.1, by simp⟩
          · intro x hx
            rcases c3 x hx with hx' | ⟨i, hi, hx'⟩
            · exact Or.inl hx'
            · exact Or.inr ⟨i, by simp [hi], hx'⟩
          · intro x hx; exact c4 x (by simp [hx])
          · intro x hx; exact c5 x (by simp [hx])
          · intro x hx; exact c6 x hx
          · exact c7
        · have hSf : pyElem "Schedule" (tagList ++ ts.map Tag.key) = false := by
            simpa using hS
          by_cases hT : pyInStr "True" cfg.stop_untagged_instances = true
          · rw [instLoop_cons_untag cfg lead inst rest tagList st ts htags hNf hSf hT] at h
            obtain ⟨c1, c2, c3, c4, c5, c6, c7⟩ := ih _ _ _ _ h
            refine ⟨?_, ?_, ?_, ?_, ?_, ?_, ?_⟩
            · intro x hx
              rcases c1 x hx with hx' | hx'
              · exact Or.inl hx'
              · exact Or.inr ⟨hx'.1, by simp⟩
            · intro x hx
              rcases c2 x hx with hx' | hx'
              · exact Or.inl hx'
              · exact Or.inr ⟨hx'.1, by simp⟩
            · intro x hx
              rcases c3 x hx with hx' | ⟨i, hi, hx'⟩
              · simp only [List.mem_append, List.mem_singleton] at hx'
                rcases hx' with hx'' | hx''
                · exact Or.inl hx''
                · exact Or.inr ⟨inst, by simp, hx''⟩
              · exact Or.inr ⟨i, by simp [hi], hx'⟩
            · intro x hx; exact c4 x hx
            · intro x hx; exact c5 x hx
            · intro x hx; exact c6 x (by simp [hx])
            · intro x hx
              rcases c7 x hx with hx' | hx'
              · rw [untaggedIdsOf_append] at hx'
                simp only [List.mem_append] at hx'
                rcases hx' with hx'' | hx''
                · exact Or.inl hx''
                · have hu : x ∈ st.untagged ++ [inst.instanceId] := by
                    simpa [untaggedIdsOf, evUntaggedIds] using hx''
                  exact Or.inr (c6 x hu)
              · exact Or.inr hx'
          · have hTf : pyInStr "True" cfg.stop_untagged_instances = false := by
              simpa using hT
            rw [instLoop_cons_plain cfg lead inst rest tagList st ts htags hNf hSf hTf] at h
            obtain ⟨c1, c2, c3, c4, c5, c6, c7⟩ := ih _ _ _ _ h
            refine ⟨?_, ?_, ?_, ?_, ?_, ?_, ?_⟩
            · intro x hx
              rcases c1 x hx with hx' | hx'
              · exact Or.inl hx'
              · exact Or.inr ⟨hx'.1, by simp⟩
            · intro x hx
              rcases c2 x hx with hx' | hx'
              · exact Or.inl hx'
              · exact Or.inr ⟨hx'.1, by simp⟩
            · intro x hx
              rcases c3 x hx with hx' | ⟨i, hi, hx'⟩
              · exact Or.inl hx'
              · exact Or.inr ⟨i, by simp [hi], hx'⟩
            · exact c4
            · exact c5
            · exact c6
            · exact c7

/-- Once `"NoShutdown"` is in the reservation's accumulated `tag_list`,
every later instance of that reservation takes the NoShutdown branch, so
the action list, the untagged list and the trace never change again. -/
theorem instLoop_noShut (cfg : Config) (lead : String) :
    ∀ (insts : List EC2Inst) (tagList : List String) (st : CatSt)
      (tl' : List String) (st' : CatSt),
    pyElem "NoShutdown" tagList = true →
    instLoop cfg lead insts tagList st = .ok (tl', st') →
    st'.action = st.action ∧ st'.untagged = st.untagged ∧ st'.evs = st.evs := by
  intro insts
  induction insts with
  | nil =>
    intro tagList st tl' st' hmem h
    rw [instLoop_nil] at h
    simp only [Except.ok.injEq, Prod.mk.injEq] at h
    rw [← h.2]
    exact ⟨rfl, rfl, rfl⟩
  | cons inst rest ih =>
    intro tagList st tl' st' hmem h
    cases htags : inst.tags with
    | none =>
      rw [instLoop_cons_notags cfg lead inst rest tagList st htags] at h
      cases h
    | some ts =>
      have hN : pyElem "NoShutdown" (tagList ++ ts.map Tag.key) = true := by
        rw [pyElem_append, hmem]
        simp
      rw [instLoop_cons_noShut cfg lead inst rest tagList st ts htags hN] at h
      have := ih _ _ _ _ hN h
      simpa using this

/-- When every instance dictionary has a `'Tags'` key the instance loop
cannot raise. -/
theorem instLoop_ok (cfg : Config) (lead : String) :
    ∀ (insts : List EC2Inst) (tagList : List String) (st : CatSt),
    (∀ i ∈ insts, i.tags ≠ none) →
    ∃ tl' st', instLoop cfg lead insts tagList st = .ok (tl', st') := by
  intro insts
  induction insts with
  | nil => intro tagList st _; exact ⟨tagList, st, rfl⟩
  | cons inst rest ih =>
    intro tagList st hp
    have hi : inst.tags ≠ none := hp inst (by simp)
    obtain ⟨ts, htags⟩ := Option.ne_none_iff_exists'.mp hi
    have hrest : ∀ i ∈ rest, i.tags ≠ none := fun i hmem => hp i (by simp [hmem])
    by_cases hN : pyElem "NoShutdown" (tagList ++ ts.map Tag.key) = true
    · rw [instLoop_cons_noShut cfg lead inst rest tagList st ts htags hN]
      exact ih _ _ hrest
    · have hNf : pyElem "NoShutdown" (tagList ++ ts.map Tag.key) = false := by simpa using hN
      by_cases hS : pyElem "Schedule" (tagList ++ ts.map Tag.key) = true
      · rw [instLoop_cons_sched cfg lead inst rest tagList st ts htags hNf hS]
        exact ih _ _ hrest
      · have hSf : pyElem "Schedule" (tagList ++ ts.map Tag.key) = false := by simpa using hS
        by_cases hT : pyInStr "True" cfg.stop_untagged_instances = true
        · rw [instLoop_cons_untag cfg lead inst rest tagList st ts htags hNf hSf hT]
          exact ih _ _ hrest
        · have hTf : pyInStr "True" cfg.stop_untagged_instances = false := by simpa using hT
          rw [instLoop_cons_plain cfg lead inst rest tagList st ts htags hNf hSf hTf]
          exact ih _ _ hrest

/-! ### Lemmas: the reservation loop -/

theorem resLoop_nil (cfg : Config) (st : CatSt) : resLoop cfg [] st = .ok st := rfl

theorem resLoop_cons_ok (cfg : Config) (r : Reservation) (rs : List Reservation)
    (st : CatSt) (tl : List String) (st1 : CatSt)
    (h : instLoop cfg (leadId r) r.instances [] st = .ok (tl, st1)) :
    resLoop cfg (r :: rs) st = resLoop cfg rs st1 := by
  simp [resLoop, h]

theorem resLoop_cons_err (cfg : Config) (r : Reservation) (rs : List Reservation)
    (st : CatSt) (e : List Ev)
    (h : instLoop cfg (leadId r) r.instances [] st = .error e) :
    resLoop cfg (r :: rs) st = .error e := by
  simp [resLoop, h]

theorem resLoop_append_eq (cfg : Config) :
    ∀ (l1 l2 : List Reservation) (st : CatSt),
    resLoop cfg (l1 ++ l2) st =
      match resLoop cfg l1 st with
      | .ok st1 => resLoop cfg l2 st1
      | .error e => .error e := by
  intro l1
  induction l1 with
  | nil => intro l2 st; simp [resLoop_nil]
  | cons r l1 ih =>
    intro l2 st
    cases hi : instLoop cfg (leadId r) r.instances [] st with
    | error e =>
      rw [List.cons_append, resLoop_cons_err cfg r (l1 ++ l2) st e hi,
          resLoop_cons_err cfg r l1 st e hi]
    | ok p =>
      obtain ⟨tl, st1⟩ := p
      rw [List.cons_append, resLoop_cons_ok cfg r (l1 ++ l2) st tl st1 hi,
          resLoop_cons_ok cfg r l1 st tl st1 hi, ih l2 st1]

/-- Combined facts about one run of the reservation loop. -/
theorem resLoop_facts (cfg : Config) :
    ∀ (rs : List Reservation) (st st' : CatSt),
    resLoop cfg rs st = .ok st' →
    (∀ x ∈ st'.action, x ∈ st.action ∨ ∃ r ∈ rs, r.instances ≠ [] ∧ x = leadId r) ∧
    (∀ x ∈ st'.noAction, x ∈ st.noAction ∨ ∃ r ∈ rs, r.instances ≠ [] ∧ x = leadId r) ∧
    (∀ x ∈ st'.untagged, x ∈ st.untagged ∨ ∃ r ∈ rs, ∃ i ∈ r.instances, x = i.instanceId) ∧
    (∀ x ∈ st.action, x ∈ st'.action) ∧
    (∀ x ∈ st.noAction, x ∈ st'.noAction) ∧
    (∀ x ∈ st.untagged, x ∈ st'.untagged) ∧
    (∀ x ∈ untaggedIdsOf st'.evs, x ∈ untaggedIdsOf st.evs ∨ x ∈ st'.untagged) := by
  intro rs
  induction rs with
  | nil =>
    intro st st' h
    rw [resLoop_nil] at h
    simp only [Except.ok.injEq] at h
    subst h
    refine ⟨?_, ?_, ?_, ?_, ?_, ?_, ?_⟩ <;> intro x hx <;> simp_all
  | cons r rs ih =>
    intro st st' h
    cases hi : instLoop cfg (leadId r) r.instances [] st with
    | error e =>
      rw [resLoop_cons_err cfg r rs st e hi] at h
      cases h
    | ok p =>
      obtain ⟨tl, st1⟩ := p
      rw [resLoop_cons_ok cfg r rs st tl st1 hi] at h
      obtain ⟨d1, d2, d3, d4, d5, d6, d7⟩ := instLoop_facts cfg (leadId r) _ _ _ _ _ hi
      obtain ⟨c1, c2, c3, c4, c5, c6, c7⟩ := ih _ _ h
      refine ⟨?_, ?_, ?_, ?_, ?_, ?_, ?_⟩
      · intro x hx
        rcases c1 x hx with hx' | ⟨r', hr', hne, hlead⟩
        · rcases d1 x hx' with hx'' | hx''
          · exact Or.inl hx''
          · exact Or.inr ⟨r, by simp, hx''.2, hx''.1⟩
        · exact Or.inr ⟨r', by simp [hr'], hne, hlead⟩
      · intro x hx
        rcases c2 x hx with hx' | ⟨r', hr', hne, hlead⟩
        · rcases d2 x hx' with hx'' | hx''
          · exact Or.inl hx''
          · exact Or.inr ⟨r, by simp, hx''.2, hx''.1⟩
        · exact Or.inr ⟨r', by simp [hr'], hne, hlead⟩
      · intro x hx
        rcases c3 x hx with hx' | ⟨r', hr', i, hi', hid⟩
        · rcases d3 x hx' with hx'' | ⟨i, hi', hid⟩
          · exact Or.inl hx''
          · exact Or.inr ⟨r, by simp, i, hi', hid⟩
        · exact Or.inr ⟨r', by simp [hr'], i, hi', hid⟩
      · intro x hx; exact c4 x (d4 x hx)
      · intro x hx; exact c5 x (d5 x hx)
      · intro x hx; exact c6 x (d6 x hx)
      · intro x hx
        rcases c7 x hx with hx' | hx'
        · rcases d7 x hx' with hx'' | hx''
          · exact Or.inl hx''
          · exact Or.inr (c6 x hx'')
        · exact Or.inr hx'

/-- When every instance of every reservation has tags, the reservation
loop cannot raise. -/
theorem resLoop_ok (cfg : Config) :
    ∀ (rs : List Reservation) (st : CatSt),
    (∀ r ∈ rs, ∀ i ∈ r.instances, i.tags ≠ none) →
    ∃ st', resLoop cfg rs st = .ok st' := by
  intro rs
  induction rs with
  | nil => intro st _; exact ⟨st, rfl⟩
  | cons r rs ih =>
    intro st hp
    obtain ⟨tl, st1, hi⟩ :=
      instLoop_ok cfg (leadId r) r.instances [] st (hp r (by simp))
    rw [resLoop_cons_ok cfg r rs st tl st1 hi]
    exact ih st1 (fun r' hr' => hp r' (by simp [hr']))

/-- Processing a single-instance reservation whose instance has at most
one tag with a Schedule-containing key changes at most one of the three
collections, and only by that instance's own id. -/
theorem instLoop_singleton (cfg : Config) (i : EC2Inst) (ts : List Tag) (st : CatSt)
    (h : i.tags = some ts)
    (hcnt : ts.countP (fun t => pyInStr "Schedule" t.key) ≤ 1) :
    ∃ st', instLoop cfg i.instanceId [i] [] st = .ok ([] ++ ts.map Tag.key, st') ∧
      (st' = st ∨
       st' = { st with action := st.action ++ [i.instanceId] } ∨
       st' = { st with noAction := st.noAction ++ [i.instanceId] } ∨
       st' = { st with
               untagged := st.untagged ++ [i.instanceId],
               evs := st.evs ++ [Ev.untaggedStopCall (st.untagged ++ [i.instanceId])] }) := by
  by_cases hN : pyElem "NoShutdown" ([] ++ ts.map Tag.key) = true
  · rw [instLoop_cons_noShut cfg i.instanceId i [] [] st ts h hN, instLoop_nil]
    exact ⟨_, rfl, Or.inr (Or.inr (Or.inl rfl))⟩
  · have hNf : pyElem "NoShutdown" ([] ++ ts.map Tag.key) = false := by simpa using hN
    by_cases hS : pyElem "Schedule" ([] ++ ts.map Tag.key) = true
    · rw [instLoop_cons_sched cfg i.instanceId i [] [] st ts h hNf hS, instLoop_nil]
      rw [scheduleLoop_acc cfg i.instanceId ts st.action st.noAction]
      rcases scheduleLoop_tri cfg i.instanceId ts hcnt with htri | htri | htri
      · refine ⟨_, rfl, Or.inl ?_⟩
        rw [htri]
        simp
      · refine ⟨_, rfl, Or.inr (Or.inl ?_)⟩
        rw [htri]
        simp
      · refine ⟨_, rfl, Or.inr (Or.inr (Or.inl ?_))⟩
        rw [htri]
        simp
    · have hSf : pyElem "Schedule" ([] ++ ts.map Tag.key) = false := by simpa using hS
      by_cases hT : pyInStr "True" cfg.stop_untagged_instances = true
      · rw [instLoop_cons_untag cfg i.instanceId i [] [] st ts h hNf hSf hT, instLoop_nil]
        exact ⟨_, rfl, Or.inr (Or.inr (Or.inr rfl))⟩
      · have hTf : pyInStr "True" cfg.stop_untagged_instances = false := by simpa using hT
        rw [instLoop_cons_plain cfg i.instanceId i [] [] st ts h hNf hSf hTf, instLoop_nil]
        exact ⟨_, rfl, Or.inl rfl⟩

/-! ### Lemmas: id bookkeeping -/

/-- All instance ids of a list of reservations. -/
def resIdsOf (rs : List Reservation) : List String :=
  (rs.map reservIds).flatten

theorem snapIds_eq_resIdsOf (s : Snapshot) : snapIds s = resIdsOf s.reservations := rfl

theorem leadId_mem (r : Reservation) (h : r.instances ≠ []) : leadId r ∈ reservIds r := by
  cases hi : r.instances with
  | nil => exact absurd hi h
  | cons i is => simp [leadId, reservIds, hi]

theorem mem_resIdsOf_of_lead (rs : List Reservation) (r' : Reservation)
    (hmem : r' ∈ rs) (hne : r'.instances ≠ []) : leadId r' ∈ resIdsOf rs := by
  simp only [resIdsOf, List.mem_flatten]
  exact ⟨reservIds r', List.mem_map_of_mem reservIds hmem, leadId_mem r' hne⟩

theorem mem_resIdsOf_of_inst (rs : List Reservation) (r' : Reservation) (i : EC2Inst)
    (hmem : r' ∈ rs) (hi : i ∈ r'.instances) : i.instanceId ∈ resIdsOf rs := by
  simp only [resIdsOf, List.mem_flatten]
  exact ⟨reservIds r', List.mem_map_of_mem reservIds hmem,
    List.mem_map_of_mem EC2Inst.instanceId hi⟩

theorem resIdsOf_append (l1 l2 : List Reservation) :
    resIdsOf (l1 ++ l2) = resIdsOf l1 ++ resIdsOf l2 := by
  simp [resIdsOf]

/-! ### Lemmas: unfolding `categorise_instances` -/

theorem categorise_instances_ok (snap : Snapshot) (cfg : Config) (st' : CatSt)
    (h : resLoop cfg snap.reservations ⟨[], [], [], []⟩ = .ok st') :
    categorise_instances (some snap) cfg = (st'.evs, some (st'.action, st'.noAction)) := by
  simp [categorise_instances, h]

theorem categorise_instances_err (snap : Snapshot) (cfg : Config) (evs : List Ev)
    (h : resLoop cfg snap.reservations ⟨[], [], [], []⟩ = .error evs) :
    categorise_instances (some snap) cfg = (evs, none) := by
  simp [categorise_instances, h]

/-! ### Lemmas: calendar arithmetic for `is_dst` -/

/-- Subtracting `weekday + 1` days from an ordinal yields the most recent
Sunday strictly before it (not the Monday on or before it). -/
theorem lastSunday_facts (A : Nat) (h : 8 ≤ A) :
    weekdayOfOrd (A - (weekdayOfOrd A + 1)) = 6 ∧
    A - (weekdayOfOrd A + 1) < A ∧
    ∀ o, A - (weekdayOfOrd A + 1) < o → o < A → weekdayOfOrd o ≠ 6 := by
  unfold weekdayOfOrd
  refine ⟨by omega, by omega, ?_⟩
  intro o h1 h2
  omega

theorem ordinalOf_apr_ge (y : Nat) : 8 ≤ ordinalOf y 4 1 := by
  have hd : 90 ≤ daysBeforeMonth y 4 := by
    unfold daysBeforeMonth
    split <;> simp
  unfold ordinalOf
  omega

theorem ordinalOf_nov_ge (y : Nat) : 8 ≤ ordinalOf y 11 1 := by
  have hd : 304 ≤ daysBeforeMonth y 11 := by
    unfold daysBeforeMonth
    split <;> simp
  unfold ordinalOf
  omega

/-! ### Concrete fixtures used by counterexamples and witnesses -/

/-- A plain configuration: all-day `"24x7"`, half-day `"12x5"`, untagged
stopping disabled. -/
def cfgStd : Config := ⟨⟨"24x7", "12x5"⟩, "False", ⟨"7,0", "19,0"⟩, []⟩

/-- A degenerate configuration whose `allDay` and `halfDay` values coincide. -/
def cfgSame : Config := ⟨⟨"sched", "sched"⟩, "False", ⟨"7,0", "19,0"⟩, []⟩

/-! ### Claim C1 -/

/-- Helper: a single-instance, single-`Schedule`-tag snapshot is classified
by the inner Schedule-value loop alone. -/
theorem categorise_single_schedule (cfg : Config) (id v : String) :
    categorise_instances (some ⟨[⟨[⟨id, some [⟨"Schedule", v⟩]⟩]⟩]⟩) cfg =
      ([], some ((scheduleLoop cfg id [⟨"Schedule", v⟩] ([], [])).1,
                 (scheduleLoop cfg id [⟨"Schedule", v⟩] ([], [])).2)) := by
  have hN : pyElem "NoShutdown" ([] ++ List.map Tag.key [(⟨"Schedule", v⟩ : Tag)]) = false := rfl
  have hS : pyElem "Schedule" ([] ++ List.map Tag.key [(⟨"Schedule", v⟩ : Tag)]) = true := rfl
  have hinst : instLoop cfg id [⟨id, some [⟨"Schedule", v⟩]⟩] [] ⟨[], [], [], []⟩ =
      .ok ([] ++ List.map Tag.key [(⟨"Schedule", v⟩ : Tag)],
        ⟨(scheduleLoop cfg id [⟨"Schedule", v⟩] ([], [])).1,
         (scheduleLoop cfg id [⟨"Schedule", v⟩] ([], [])).2, [], []⟩) := by
    rw [instLoop_cons_sched cfg id ⟨id, some [⟨"Schedule", v⟩]⟩ [] []
          ⟨[], [], [], []⟩ [⟨"Schedule", v⟩] rfl hN hS, instLoop_nil]
  have hres : resLoop cfg [⟨[⟨id, some [⟨"Schedule", v⟩]⟩]⟩] ⟨[], [], [], []⟩ =
      .ok ⟨(scheduleLoop cfg id [⟨"Schedule", v⟩] ([], [])).1,
           (scheduleLoop cfg id [⟨"Schedule", v⟩] ([], [])).2, [], []⟩ := by
    rw [resLoop_cons_ok cfg ⟨[⟨id, some [⟨"Schedule", v⟩]⟩]⟩ [] ⟨[], [], [], []⟩ _ _ hinst,
        resLoop_nil]
  exact categorise_instances_ok ⟨[⟨[⟨id, some [⟨"Schedule", v⟩]⟩]⟩]⟩ cfg _ hres

/-- Claim C1, amended.  For an inspected `Schedule` tag: an empty value or
a value equal to `allDay` appends the identifier to `no_action_required`;
a value equal to `halfDay` appends it to `action_required` provided that
value is non-empty and differs from `allDay` (the three checks are tried
in the order empty, `allDay`, `halfDay`); any other value appends nothing. -/
theorem C1_amended_schedule_value (cfg : Config) (v id : String) :
    (v = "" ∨ v = cfg.schedule.allDay →
      categorise_instances (some ⟨[⟨[⟨id, some [⟨"Schedule", v⟩]⟩]⟩]⟩) cfg =
        ([], some ([], [id]))) ∧
    (v ≠ "" → v ≠ cfg.schedule.allDay → v = cfg.schedule.halfDay →
      categorise_instances (some ⟨[⟨[⟨id, some [⟨"Schedule", v⟩]⟩]⟩]⟩) cfg =
        ([], some ([id], []))) ∧
    (v ≠ "" → v ≠ cfg.schedule.allDay → v ≠ cfg.schedule.halfDay →
      categorise_instances (some ⟨[⟨[⟨id, some [⟨"Schedule", v⟩]⟩]⟩]⟩) cfg =
        ([], some ([], []))) := by
  have hkey : pyInStr "Schedule" (Tag.key ⟨"Schedule", v⟩) = true := rfl
  refine ⟨?_, ?_, ?_⟩
  · intro hv
    rw [categorise_single_schedule cfg id v]
    by_cases hv0 : v = ""
    · rw [scheduleLoop_cons_empty cfg id ⟨"Schedule", v⟩ [] [] [] hkey hv0]
      simp [scheduleLoop]
    · have hva : v = cfg.schedule.allDay := by
        rcases hv with h | h
        · exact absurd h hv0
        · exact h
      rw [scheduleLoop_cons_all cfg id ⟨"Schedule", v⟩ [] [] [] hkey hv0 hva]
      simp [scheduleLoop]
  · intro hv0 hva hvh
    rw [categorise_single_schedule cfg id v,
        scheduleLoop_cons_half cfg id ⟨"Schedule", v⟩ [] [] [] hkey hv0 hva hvh]
    simp [scheduleLoop]
  · intro hv0 hva hvh
    rw [categorise_single_schedule cfg id v,
        scheduleLoop_cons_other cfg id ⟨"Schedule", v⟩ [] [] [] hkey hv0 hva hvh]
    simp [scheduleLoop]

/-- Claim C1, counterexample to the frozen wording.  With the degenerate
configuration whose `halfDay` equals its `allDay` value (`"sched"`), an
instance whose `Schedule` value equals `halfDay` is appended to
`no_action_required`, not to `action_required` as the claim requires: the
returned `action_required` list is empty. -/
theorem C1_counterexample :
    categorise_instances (some ⟨[⟨[⟨"i-1", some [⟨"Schedule", "sched"⟩]⟩]⟩]⟩) cfgSame =
      ([], some ([], ["i-1"])) ∧
    cfgSame.schedule.halfDay = "sched" ∧
    "i-1" ∉ ((categorise_instances
      (some ⟨[⟨[⟨"i-1", some [⟨"Schedule", "sched"⟩]⟩]⟩]⟩) cfgSame).2.getD ([], [])).1 := by
  refine ⟨by decide, by decide, by decide⟩

/-- Witness for the amended C1 theorem at concrete inputs: the `allDay`
value `"24x7"` lands in `no_action_required`, the `halfDay` value
`"12x5"` lands in `action_required`, and an unknown value lands nowhere. -/
theorem C1_amended_witness :
    categorise_instances (some ⟨[⟨[⟨"i-1", some [⟨"Schedule", "24x7"⟩]⟩]⟩]⟩) cfgStd =
      ([], some ([], ["i-1"])) ∧
    categorise_instances (some ⟨[⟨[⟨"i-1", some [⟨"Schedule", "12x5"⟩]⟩]⟩]⟩) cfgStd =
      ([], some (["i-1"], [])) ∧
    categorise_instances (some ⟨[⟨[⟨"i-1", some [⟨"Schedule", "zz"⟩]⟩]⟩]⟩) cfgStd =
      ([], some ([], [])) :=
  ⟨(C1_amended_schedule_value cfgStd "24x7" "i-1").1 (Or.inr (by decide)),
   (C1_amended_schedule_value cfgStd "12x5" "i-1").2.1 (by decide) (by decide) (by decide),
   (C1_amended_schedule_value cfgStd "zz" "i-1").2.2 (by decide) (by decide) (by decide)⟩

/-! ### Claim C5 -/

/-- Claim C5, amended.  The code's `dston`/`dstoff` are the most recent
*Sundays strictly before* April 1 and November 1 (not Mondays on or
before them): each has weekday 6 and no later ordinal before the month's
first is a Sunday.  Inside `[dston, dstoff)` the function returns
`now + 1 hour` with label `"GMT +1"` (with a space); outside it returns
`now` unchanged with label `"GMT"`. -/
theorem C5_amended_dst_window (now : PyDatetime) :
    (weekdayOfOrd (dstonOf now.year) = 6 ∧
     dstonOf now.year < ordinalOf now.year 4 1 ∧
     ∀ o, dstonOf now.year < o → o < ordinalOf now.year 4 1 → weekdayOfOrd o ≠ 6) ∧
    (weekdayOfOrd (dstoffOf now.year) = 6 ∧
     dstoffOf now.year < ordinalOf now.year 11 1 ∧
     ∀ o, dstoffOf now.year < o → o < ordinalOf now.year 11 1 → weekdayOfOrd o ≠ 6) ∧
    (dstonOf now.year * 86400 ≤ timeKey now → timeKey now < dstoffOf now.year * 86400 →
      is_dst now = (addOneHour now, "GMT +1")) ∧
    (timeKey now < dstonOf now.year * 86400 ∨ dstoffOf now.year * 86400 ≤ timeKey now →
      is_dst now = (now, "GMT")) := by
  refine ⟨?_, ?_, ?_, ?_⟩
  · simpa [dstonOf] using lastSunday_facts (ordinalOf now.year 4 1) (ordinalOf_apr_ge now.year)
  · simpa [dstoffOf] using lastSunday_facts (ordinalOf now.year 11 1) (ordinalOf_nov_ge now.year)
  · intro h1 h2
    simp [is_dst, h1, h2]
  · intro h
    rw [is_dst, if_neg]
    intro hc
    rcases h with h | h
    · omega
    · omega

/-- Claim C5, counterexample to the frozen wording.  April 1, 2024 is
itself a Monday, so the claim's window starts at 2024-04-01 00:00 and
noon of 2024-03-31 lies outside it; yet `is_dst` shifts that instant by
one hour, and its in-window label is `"GMT +1"`, not `"GMT+1"`. -/
theorem C5_counterexample :
    is_dst ⟨2024, 3, 31, 12, 0, 0⟩ = (⟨2024, 3, 31, 13, 0, 0⟩, "GMT +1") ∧
    weekdayOfOrd (ordinalOf 2024 4 1) = 0 ∧
    timeKey ⟨2024, 3, 31, 12, 0, 0⟩ <
      (ordinalOf 2024 4 1 - weekdayOfOrd (ordinalOf 2024 4 1)) * 86400 ∧
    ("GMT +1" : String) ≠ "GMT+1" := by
  refine ⟨by decide, by decide, by decide, by decide⟩

/-- Witness for the amended C5 theorem: mid-June 2024 is inside the code's
window, mid-December outside it. -/
theorem C5_amended_witness :
    is_dst ⟨2024, 6, 15, 12, 0, 0⟩ = (addOneHour ⟨2024, 6, 15, 12, 0, 0⟩, "GMT +1") ∧
    is_dst ⟨2024, 12, 15, 12, 0, 0⟩ = (⟨2024, 12, 15, 12, 0, 0⟩, "GMT") :=
  ⟨(C5_amended_dst_window ⟨2024, 6, 15, 12, 0, 0⟩).2.2.1 (by decide) (by decide),
   (C5_amended_dst_window ⟨2024, 12, 15, 12, 0, 0⟩).2.2.2 (Or.inr (by decide))⟩

/-! ### Claim C6 -/

/-- A configuration whose untagged-stop flag is the literal `"True"`. -/
def cfgTrue : Config := ⟨⟨"24x7", "12x5"⟩, "True", ⟨"7,0", "19,0"⟩, []⟩

/-- A configuration whose untagged-stop flag is `"NotTrue"`, which is not
the literal `"True"` but contains it as a substring. -/
def cfgNotTrue : Config := ⟨⟨"24x7", "12x5"⟩, "NotTrue", ⟨"7,0", "19,0"⟩, []⟩

/-- Claim C6, amended.  For an instance lacking both the `NoShutdown` and
the `Schedule` tag key, a stop call covering its id is issued exactly when
`"True"` occurs *as a substring* of `config.stop_untagged_instances` (not
only when the value is the literal `"True"`); the call is issued
immediately on discovery, and with several untagged instances each call
re-submits the whole accumulated list. -/
theorem C6_amended_untagged_substring (cfg : Config) (id : String) (ts : List Tag)
    (hN : pyElem "NoShutdown" (ts.map Tag.key) = false)
    (hS : pyElem "Schedule" (ts.map Tag.key) = false) :
    categorise_instances (some ⟨[⟨[⟨id, some ts⟩]⟩]⟩) cfg =
      ((if pyInStr "True" cfg.stop_untagged_instances = true
        then [Ev.untaggedStopCall [id]] else []), some ([], [])) ∧
    ((id ∈ untaggedIdsOf (categorise_instances (some ⟨[⟨[⟨id, some ts⟩]⟩]⟩) cfg).1) ↔
      pyInStr "True" cfg.stop_untagged_instances = true) ∧
    (∀ id1 id2 : String, pyInStr "True" cfg.stop_untagged_instances = true →
      categorise_instances (some ⟨[⟨[⟨id1, some []⟩, ⟨id2, some []⟩]⟩]⟩) cfg =
        ([Ev.untaggedStopCall [id1], Ev.untaggedStopCall [id1, id2]], some ([], []))) := by
  have hN' : pyElem "NoShutdown" ([] ++ ts.map Tag.key) = false := by simpa using hN
  have hS' : pyElem "Schedule" ([] ++ ts.map Tag.key) = false := by simpa using hS
  have hmain : categorise_instances (some ⟨[⟨[⟨id, some ts⟩]⟩]⟩) cfg =
      ((if pyInStr "True" cfg.stop_untagged_instances = true
        then [Ev.untaggedStopCall [id]] else []), some ([], [])) := by
    by_cases hT : pyInStr "True" cfg.stop_untagged_instances = true
    · have hinst : instLoop cfg id [⟨id, some ts⟩] [] ⟨[], [], [], []⟩ =
          .ok ([] ++ ts.map Tag.key, ⟨[], [], [] ++ [id],
            [] ++ [Ev.untaggedStopCall ([] ++ [id])]⟩) := by
        rw [instLoop_cons_untag cfg id ⟨id, some ts⟩ [] [] ⟨[], [], [], []⟩ ts rfl hN' hS' hT,
            instLoop_nil]
      have hres : resLoop cfg [⟨[⟨id, some ts⟩]⟩] ⟨[], [], [], []⟩ =
          .ok ⟨[], [], [] ++ [id], [] ++ [Ev.untaggedStopCall ([] ++ [id])]⟩ := by
        rw [resLoop_cons_ok cfg ⟨[⟨id, some ts⟩]⟩ [] ⟨[], [], [], []⟩ _ _ hinst, resLoop_nil]
      rw [categorise_instances_ok ⟨[⟨[⟨id, some ts⟩]⟩]⟩ cfg _ hres]
      simp [hT]
    · have hTf : pyInStr "True" cfg.stop_untagged_instances = false := by simpa using hT
      have hinst : instLoop cfg id [⟨id, some ts⟩] [] ⟨[], [], [], []⟩ =
          .ok ([] ++ ts.map Tag.key, ⟨[], [], [], []⟩) := by
        rw [instLoop_cons_plain cfg id ⟨id, some ts⟩ [] [] ⟨[], [], [], []⟩ ts rfl hN' hS' hTf,
            instLoop_nil]
      have hres : resLoop cfg [⟨[⟨id, some ts⟩]⟩] ⟨[], [], [], []⟩ =
          .ok ⟨[], [], [], []⟩ := by
        rw [resLoop_cons_ok cfg ⟨[⟨id, some ts⟩]⟩ [] ⟨[], [], [], []⟩ _ _ hinst, resLoop_nil]
      rw [categorise_instances_ok ⟨[⟨[⟨id, some ts⟩]⟩]⟩ cfg _ hres]
      simp [hTf]
  refine ⟨hmain, ?_, ?_⟩
  · rw [hmain]
    by_cases hT : pyInStr "True" cfg.stop_untagged_instances = true
    · simp [hT, untaggedIdsOf, evUntaggedIds]
    · have hTf : pyInStr "True" cfg.stop_untagged_instances = false := by simpa using hT
      simp [hTf, untaggedIdsOf]
  · intro id1 id2 hT
    have hinst : instLoop cfg id1 [⟨id1, some []⟩, ⟨id2, some []⟩] [] ⟨[], [], [], []⟩ =
        .ok ([], ⟨[], [], [id1, id2],
          [Ev.untaggedStopCall [id1], Ev.untaggedStopCall [id1, id2]]⟩) := by
      simp [instLoop, pyElem, hT, stop_untagged_instances]
    have hres : resLoop cfg [⟨[⟨id1, some []⟩, ⟨id2, some []⟩]⟩] ⟨[], [], [], []⟩ =
        .ok ⟨[], [], [id1, id2],
          [Ev.untaggedStopCall [id1], Ev.untaggedStopCall [id1, id2]]⟩ := by
      rw [resLoop_cons_ok cfg ⟨[⟨id1, some []⟩, ⟨id2, some []⟩]⟩ [] ⟨[], [], [], []⟩ _ _
            hinst, resLoop_nil]
    rw [categorise_instances_ok ⟨[⟨[⟨id1, some []⟩, ⟨id2, some []⟩]⟩]⟩ cfg _ hres]

/-- Claim C6, counterexample to the frozen wording.  With the flag value
`"NotTrue"` — not the literal `"True"` — the classifier still issues a
stop call covering the untagged instance, because the code tests `'True'
in config['stop_untagged_instances']`, a substring check. -/
theorem C6_counterexample :
    categorise_instances (some ⟨[⟨[⟨"i-1", some []⟩]⟩]⟩) cfgNotTrue =
      ([Ev.untaggedStopCall ["i-1"]], some ([], [])) ∧
    cfgNotTrue.stop_untagged_instances ≠ "True" := by
  refine ⟨by decide, by decide⟩

/-- Witness for the amended C6 theorem: with the literal `"True"` a
single bare instance is stopped, and two bare instances produce two
accumulated stop calls. -/
theorem C6_amended_witness :
    categorise_instances (some ⟨[⟨[⟨"i-1", some []⟩]⟩]⟩) cfgTrue =
      ([Ev.untaggedStopCall ["i-1"]], some ([], [])) ∧
    categorise_instances (some ⟨[⟨[⟨"i-1", some []⟩, ⟨"i-2", some []⟩]⟩]⟩) cfgTrue =
      ([Ev.untaggedStopCall ["i-1"], Ev.untaggedStopCall ["i-1", "i-2"]], some ([], [])) := by
  constructor
  · have h := (C6_amended_untagged_substring cfgTrue "i-1" [] (by decide) (by decide)).1
    simpa using h
  · exact (C6_amended_untagged_substring cfgTrue "i-1" [] (by decide) (by decide)).2.2
      "i-1" "i-2" (by decide)

/-! ### Claim C10 -/

/-- Claim C10.  Inside the `Schedule` branch every tag whose key contains
`"Schedule"` as a substring is inspected: with tags
`Schedule = "12x5"` (the half-day value) and `ScheduleOverride = "24x7"`
(the all-day value) the lead id is appended once per matching tag,
landing in both `action_required` and `no_action_required`; and with a
`Schedule` value matching nothing, the `ScheduleOverride` value alone
still places the id in `no_action_required`. -/
theorem C10_schedule_substring_keys :
    categorise_instances (some ⟨[⟨[⟨"i-1",
        some [⟨"Schedule", "12x5"⟩, ⟨"ScheduleOverride", "24x7"⟩]⟩]⟩]⟩) cfgStd =
      ([], some (["i-1"], ["i-1"])) ∧
    categorise_instances (some ⟨[⟨[⟨"i-1",
        some [⟨"Schedule", "zz"⟩, ⟨"ScheduleOverride", "24x7"⟩]⟩]⟩]⟩) cfgStd =
      ([], some ([], ["i-1"])) := by
  refine ⟨by decide, by decide⟩

/-! ### Claim C3 -/

/-- Claim C3.  With `start < stop`: inside `[start, stop)` the dispatcher
queries `"stopped"` instances and issues the start action on exactly the
`action_required` identifiers; at or after `stop` it queries `"running"`
instances and issues the stop action on exactly those identifiers; before
`start` it performs no query and no action. -/
theorem C3_dispatcher_windows (now : PyDatetime) (start stop : Nat) (env : EC2Env)
    (cfg : Config) (hss : start < stop) :
    (∀ evs a b, start ≤ timeOfDay now → timeOfDay now < stop →
      get_instance_ids env cfg "stopped" = (evs, some (a, b)) →
      start_stop now start stop env cfg =
        (evs ++ action_on_instances Ev.startCall a, .ok ())) ∧
    (∀ evs a b, stop ≤ timeOfDay now →
      get_instance_ids env cfg "running" = (evs, some (a, b)) →
      start_stop now start stop env cfg =
        (evs ++ action_on_instances Ev.stopCall a, .ok ())) ∧
    (timeOfDay now < start → start_stop now start stop env cfg = ([], .ok ())) := by
  refine ⟨?_, ?_, ?_⟩
  · intro evs a b h1 h2 hg
    simp only [start_stop]
    rw [if_pos ⟨h1, h2⟩, hg]
  · intro evs a b h1 hg
    simp only [start_stop]
    rw [if_neg (fun hc => by omega), if_pos h1, hg]
  · intro h1
    simp only [start_stop]
    rw [if_neg (fun hc => by omega), if_neg (by omega)]

/-- A one-instance snapshot carrying the standard half-day schedule tag,
and an environment returning it for every state filter. -/
def snapHalf : Snapshot := ⟨[⟨[⟨"i-1", some [⟨"Schedule", "12x5"⟩]⟩]⟩]⟩

def envStd : EC2Env := fun _ => .ok snapHalf

/-- Witness for C3: 08:00 against a 07:00–19:00 window starts the
classified instance, 20:00 stops it, 06:00 does nothing. -/
theorem C3_witness :
    start_stop ⟨2024, 1, 10, 8, 0, 0⟩ 25200 68400 envStd cfgStd =
      ([Ev.describeCall "stopped", Ev.startCall ["i-1"]], .ok ()) ∧
    start_stop ⟨2024, 1, 10, 20, 0, 0⟩ 25200 68400 envStd cfgStd =
      ([Ev.describeCall "running", Ev.stopCall ["i-1"]], .ok ()) ∧
    start_stop ⟨2024, 1, 10, 6, 0, 0⟩ 25200 68400 envStd cfgStd = ([], .ok ()) := by
  refine ⟨?_, ?_, ?_⟩
  · have h := (C3_dispatcher_windows ⟨2024, 1, 10, 8, 0, 0⟩ 25200 68400 envStd cfgStd
        (by decide)).1 [Ev.describeCall "stopped"] ["i-1"] []
        (by decide) (by decide) (by decide)
    simpa [action_on_instances] using h
  · have h := (C3_dispatcher_windows ⟨2024, 1, 10, 20, 0, 0⟩ 25200 68400 envStd cfgStd
        (by decide)).2.1 [Ev.describeCall "running"] ["i-1"] []
        (by decide) (by decide)
    simpa [action_on_instances] using h
  · exact (C3_dispatcher_windows ⟨2024, 1, 10, 6, 0, 0⟩ 25200 68400 envStd cfgStd
      (by decide)).2.2 (by decide)

/-! ### Claim C7 -/

theorem pySplit_no_sep (sep : Char) (l : List Char) (h : ∀ c ∈ l, c ≠ sep) :
    pySplit sep l = [l] := by
  induction l with
  | nil => rfl
  | cons c cs ih =>
    have hc : (c == sep) = false := by
      simpa using h c (by simp)
    simp only [pySplit, hc, Bool.false_eq_true, if_false]
    rw [ih (fun u hu => h u (by simp [hu]))]

theorem pySplit_two (sep : Char) (h d : List Char)
    (hh : ∀ c ∈ h, c ≠ sep) (hd : ∀ c ∈ d, c ≠ sep) :
    pySplit sep (h ++ sep :: d) = [h, d] := by
  induction h with
  | nil =>
    simp only [List.nil_append, pySplit, beq_self_eq_true, if_true]
    rw [pySplit_no_sep sep d hd]
  | cons c cs ih =>
    have hc : (c == sep) = false := by
      simpa using hh c (by simp)
    simp only [List.cons_append, pySplit, hc, Bool.false_eq_true, if_false]
    show (match pySplit sep (cs ++ sep :: d) with
          | [] => [[c]]
          | p :: ps => (c :: p) :: ps) = [c :: cs, d]
    rw [ih (fun u hu => hh u (by simp [hu]))]

theorem pyInt_digits (d : List Char) (hne : d ≠ []) (hd : ∀ c ∈ d, c.isDigit) :
    pyInt d = some (digitsToNat d) := by
  unfold pyInt
  rw [if_neg hne, if_pos]
  exact List.all_eq_true.mpr (fun c hc => hd c hc)

/-- Claim C7.  `is_weekday` splits `"<hours>x<days>"` on `'x'` and returns
`day <= int(days) - 1`; in particular Monday (0) passes and Saturday (5)
fails for `"12x5"`; and the entry point's per-account loop is reached
exactly when the predicate returns `True`. -/
theorem C7_is_weekday_gate (day : Nat) (hs ds : List Char)
    (hh : ∀ c ∈ hs, c ≠ 'x') (hd : ∀ c ∈ ds, c ≠ 'x')
    (hne : ds ≠ []) (hdig : ∀ c ∈ ds, c.isDigit)
    (cfg : Config) (current : PyDatetime) (env : String → EC2Env) :
    (is_weekday day (String.mk (hs ++ 'x' :: ds)) =
      some (decide ((day : Int) ≤ (digitsToNat ds : Int) - 1))) ∧
    (is_weekday 0 "12x5" = some true ∧ is_weekday 5 "12x5" = some false) ∧
    (is_weekday day cfg.schedule.halfDay = some true →
      lambda_handler_body day (some cfg) current env =
        accountLoop cfg current env cfg.role_arns []) ∧
    (is_weekday day cfg.schedule.halfDay = some false →
      lambda_handler_body day (some cfg) current env = ([], .ok ())) ∧
    (is_weekday day cfg.schedule.halfDay = none →
      lambda_handler_body day (some cfg) current env = ([], .error ())) := by
  refine ⟨?_, ⟨by decide, by decide⟩, ?_, ?_, ?_⟩
  · unfold is_weekday
    rw [show (String.mk (hs ++ 'x' :: ds)).toList = hs ++ 'x' :: ds from rfl,
        pySplit_two 'x' hs ds hh hd]
    show (match pyInt ds with
          | some n => some (decide ((day : Int) ≤ (n : Int) - 1))
          | none => none) =
      some (decide ((day : Int) ≤ (digitsToNat ds : Int) - 1))
    rw [pyInt_digits ds hne hdig]
  · intro hw
    simp [lambda_handler_body, hw]
  · intro hw
    simp [lambda_handler_body, hw]
  · intro hw
    simp [lambda_handler_body, hw]

/-- An environment in which every describe call raises. -/
def envNone : String → EC2Env := fun _ _ => .error ()

/-- Witness for C7 at `"12x5"`: the parsed form, the two concrete
evaluations, and the gate letting Monday's invocation reach the account
loop. -/
theorem C7_witness :
    is_weekday 0 (String.mk (['1', '2'] ++ 'x' :: ['5'])) =
      some (decide ((0 : Int) ≤ (digitsToNat ['5'] : Int) - 1)) ∧
    is_weekday 0 "12x5" = some true ∧ is_weekday 5 "12x5" = some false ∧
    lambda_handler_body 0 (some cfgStd) ⟨2024, 1, 10, 8, 0, 0⟩ envNone =
      accountLoop cfgStd ⟨2024, 1, 10, 8, 0, 0⟩ envNone cfgStd.role_arns [] := by
  obtain ⟨h1, h2, h3, _h4, _h5⟩ := C7_is_weekday_gate 0 ['1', '2'] ['5']
    (by decide) (by decide) (by decide) (by decide)
    cfgStd ⟨2024, 1, 10, 8, 0, 0⟩ envNone
  exact ⟨h1, h2.1, h2.2, h3 (by decide)⟩

/-! ### Claim C9 -/

/-- Claim C9.  When classification raises (here: an instance dictionary
with no `'Tags'` key), `categorise_instances` logs and returns an absent
result; `get_instance_ids` destructures it, its own handler catches the
`TypeError`, and it too returns an absent result; `start_stop`
destructures that absent result and raises with no handler of its own;
the entry point's outermost handler swallows the error, so the invocation
ends without raising, with no events after the failing account - the
remaining accounts are never processed. -/
theorem C9_classification_failure
    (snap : Snapshot) (cfg : Config) (evs : List Ev)
    (hraise : resLoop cfg snap.reservations ⟨[], [], [], []⟩ = .error evs)
    (env : EC2Env) (henv : env "stopped" = .ok snap)
    (now : PyDatetime) (start stop : Nat)
    (h1 : start ≤ timeOfDay now) (h2 : timeOfDay now < stop) :
    categorise_instances (some snap) cfg = (evs, none) ∧
    get_instance_ids env cfg "stopped" = (Ev.describeCall "stopped" :: evs, none) ∧
    start_stop now start stop env cfg = (Ev.describeCall "stopped" :: evs, .error ()) ∧
    (∀ (day : Nat) (current : PyDatetime) (arn1 : String) (rest : List String)
       (envF : String → EC2Env) (tz : String) (acct : List Char),
      cfg.role_arns = arn1 :: rest →
      is_weekday day cfg.schedule.halfDay = some true →
      (pySplit ':' arn1.toList)[4]? = some acct →
      convert_to_datetime cfg.times current = some (start, stop, now, tz) →
      envF arn1 = env →
      lambda_handler_body day (some cfg) current envF =
        (Ev.describeCall "stopped" :: evs, .error ()) ∧
      lambda_handler day (some cfg) current envF = Ev.describeCall "stopped" :: evs) := by
  have hcat := categorise_instances_err snap cfg evs hraise
  have hget : get_instance_ids env cfg "stopped" = (Ev.describeCall "stopped" :: evs, none) := by
    simp [get_instance_ids, henv, hcat]
  have hss : start_stop now start stop env cfg =
      (Ev.describeCall "stopped" :: evs, .error ()) := by
    simp only [start_stop]
    rw [if_pos ⟨h1, h2⟩, hget]
  refine ⟨hcat, hget, hss, ?_⟩
  intro day current arn1 rest envF tz acct hr hw hsplit hconv henvF
  have hacc : accountLoop cfg current envF (arn1 :: rest) [] =
      (Ev.describeCall "stopped" :: evs, .error ()) := by
    have hsplit' : (pySplit ':' arn1.data)[4]? = some acct := hsplit
    simp [accountLoop, hsplit', hconv, henvF, hss]
  constructor
  · simp [lambda_handler_body, hw, hr, hacc]
  · simp [lambda_handler, lambda_handler_body, hw, hr, hacc]

/-- A snapshot whose only instance has no `'Tags'` key, so classification
raises; an environment serving it; a config with two accounts. -/
def snapBad : Snapshot := ⟨[⟨[⟨"i-1", none⟩]⟩]⟩

def envBad : EC2Env := fun _ => .ok snapBad

def envBadF : String → EC2Env := fun _ => envBad

def cfgC9 : Config :=
  ⟨⟨"24x7", "12x5"⟩, "True", ⟨"7,0", "19,0"⟩,
   ["arn:aws:iam::111222333:role/r1", "arn:aws:iam::444:role/r2"]⟩

/-- Witness for C9: with two configured accounts and the first account's
classification raising, the invocation returns normally having issued
only the first account's describe call; the second account is untouched. -/
theorem C9_witness :
    lambda_handler 0 (some cfgC9) ⟨2024, 1, 10, 8, 0, 0⟩ envBadF =
      [Ev.describeCall "stopped"] ∧
    (lambda_handler_body 0 (some cfgC9) ⟨2024, 1, 10, 8, 0, 0⟩ envBadF).2 = .error () := by
  have h := (C9_classification_failure snapBad cfgC9 [] rfl envBad rfl
      ⟨2024, 1, 10, 8, 0, 0⟩ 25200 68400 (by decide) (by decide)).2.2.2
      0 ⟨2024, 1, 10, 8, 0, 0⟩ "arn:aws:iam::111222333:role/r1"
      ["arn:aws:iam::444:role/r2"] envBadF "GMT"
      ['1', '1', '1', '2', '2', '2', '3', '3', '3']
      rfl (by decide) (by decide) (by decide) rfl
  exact ⟨h.2, by rw [h.1]⟩

/-! ### Claim C2 -/

/-- Inversion: a present classification result comes from a successful
reservation-loop run. -/
theorem categorise_instances_some_inv (snap : Snapshot) (cfg : Config)
    (evs : List Ev) (a n : List String)
    (h : categorise_instances (some snap) cfg = (evs, some (a, n))) :
    ∃ st', resLoop cfg snap.reservations ⟨[], [], [], []⟩ = .ok st' ∧
      st'.evs = evs ∧ st'.action = a ∧ st'.noAction = n := by
  have h' : (match resLoop cfg snap.reservations ⟨[], [], [], []⟩ with
      | .ok st => (st.evs, some (st.action, st.noAction))
      | .error e => (e, none)) = (evs, some (a, n)) := h
  cases hres : resLoop cfg snap.reservations ⟨[], [], [], []⟩ with
  | ok st' =>
    rw [hres] at h'
    simp only [Prod.mk.injEq, Option.some.injEq] at h'
    exact ⟨st', rfl, h'.1, h'.2.1, h'.2.2⟩
  | error e =>
    rw [hres] at h'
    simp at h'

/-- Claim C2, amended.  When the *first* instance of a reservation carries
the `NoShutdown` tag key (and the snapshot is well-formed: every instance
has tags, and instance ids are pairwise distinct), the lead identifier is
placed in `no_action_required` and appears neither in `action_required`
nor in any untagged-stop payload, regardless of any `Schedule` tag the
instance also carries.  (For a *non-lead* NoShutdown instance the code
appends the lead's id instead of its own - see the counterexample.) -/
theorem C2_amended_noshutdown_lead (snap : Snapshot) (cfg : Config)
    (pre post : List Reservation) (r : Reservation) (i0 : EC2Inst) (ts0 : List Tag)
    (hsnap : snap.reservations = pre ++ r :: post)
    (hhead : r.instances.head? = some i0)
    (htags0 : i0.tags = some ts0)
    (hNo : pyElem "NoShutdown" (ts0.map Tag.key) = true)
    (hTP : TagsPresent snap)
    (hnd : (snapIds snap).Nodup)
    (evs : List Ev) (a n : List String)
    (hrun : categorise_instances (some snap) cfg = (evs, some (a, n))) :
    leadId r ∈ n ∧ leadId r ∉ a ∧ leadId r ∉ untaggedIdsOf evs := by
  obtain ⟨st', hres, hevs, ha, hn⟩ := categorise_instances_some_inv snap cfg evs a n hrun
  rw [hsnap] at hres
  -- run the prefix
  have hTPpre : ∀ r' ∈ pre, ∀ i ∈ r'.instances, i.tags ≠ none := by
    intro r' hr' i hi
    exact hTP r' (by rw [hsnap]; exact List.mem_append_left _ hr') i hi
  obtain ⟨st1, hpre⟩ := resLoop_ok cfg pre ⟨[], [], [], []⟩ hTPpre
  rw [resLoop_append_eq cfg pre (r :: post) ⟨[], [], [], []⟩, hpre] at hres
  have hres2 : resLoop cfg (r :: post) st1 = .ok st' := hres
  -- split the reservation r step off
  cases hr : instLoop cfg (leadId r) r.instances [] st1 with
  | error e =>
    rw [resLoop_cons_err cfg r post st1 e hr] at hres2
    cases hres2
  | ok p =>
    obtain ⟨tl2, st2⟩ := p
    rw [resLoop_cons_ok cfg r post st1 tl2 st2 hr] at hres2
    -- the reservation's instances start with i0
    cases hinsts : r.instances with
    | nil => rw [hinsts] at hhead; cases hhead
    | cons i0' irest =>
      rw [hinsts] at hhead
      simp only [List.head?_cons, Option.some.injEq] at hhead
      subst hhead
      have hlead : leadId r = i0'.instanceId := by
        simp [leadId, hinsts]
      have hN : pyElem "NoShutdown" ([] ++ ts0.map Tag.key) = true := by simpa using hNo
      rw [hinsts, instLoop_cons_noShut cfg (leadId r) i0' irest [] st1 ts0 htags0 hN] at hr
      -- the rest of the reservation keeps the invariant
      obtain ⟨hact2, hunt2, hevs2⟩ := instLoop_noShut cfg (leadId r) irest _ _ _ _ hN hr
      simp only at hact2 hunt2 hevs2
      -- id bookkeeping
      have hids : (resIdsOf pre ++ (reservIds r ++ resIdsOf post)).Nodup := by
        have : snapIds snap = resIdsOf pre ++ (reservIds r ++ resIdsOf post) := by
          rw [snapIds_eq_resIdsOf, hsnap, resIdsOf_append]
          simp [resIdsOf]
        rwa [this] at hnd
      have hleadr : leadId r ∈ reservIds r := leadId_mem r (by rw [hinsts]; simp)
      have hnotpre : leadId r ∉ resIdsOf pre := by
        intro hmem
        have hdisj := (List.nodup_append.mp hids).2.2
        exact hdisj hmem (List.mem_append_left _ hleadr)
      have hnotpost : leadId r ∉ resIdsOf post := by
        intro hmem
        have h2 := (List.nodup_append.mp hids).2.1
        have hdisj := (List.nodup_append.mp h2).2.2
        exact hdisj hleadr hmem
      -- facts about the three runs
      obtain ⟨p1, p2, p3, p4, p5, p6, p7⟩ := resLoop_facts cfg pre _ _ hpre
      obtain ⟨d1, d2, d3, d4, d5, d6, d7⟩ := instLoop_facts cfg (leadId r) irest _ _ _ _ hr
      obtain ⟨q1, q2, q3, q4, q5, q6, q7⟩ := resLoop_facts cfg post _ _ hres2
      simp only at p1 p2 p3 p4 p5 p6 p7 d1 d2 d3 d4 d5 d6 d7
      refine ⟨?_, ?_, ?_⟩
      · -- lead lands in no_action_required
        rw [← hn]
        apply q5
        apply d5
        simp
      · -- lead never lands in action_required
        rw [← ha]
        intro hmem
        rcases q1 _ hmem with hmem2 | ⟨r', hr', hne', hlead'⟩
        · rw [hact2] at hmem2
          rcases p1 _ hmem2 with hmem1 | ⟨r', hr', hne', hlead'⟩
          · simp at hmem1
          · exact hnotpre (hlead' ▸ mem_resIdsOf_of_lead pre r' hr' hne')
        · exact hnotpost (hlead' ▸ mem_resIdsOf_of_lead post r' hr' hne')
      · -- lead never appears in an untagged-stop payload
        rw [← hevs]
        intro hmem
        have hu1 : leadId r ∉ st1.untagged := by
          intro hmem1
          rcases p3 _ hmem1 with hmem0 | ⟨r', hr', i, hi', hid⟩
          · simp at hmem0
          · exact hnotpre (hid ▸ mem_resIdsOf_of_inst pre r' i hr' hi')
        have hu2 : leadId r ∉ st2.untagged := by
          rw [hunt2]; exact hu1
        have hu' : leadId r ∉ st'.untagged := by
          intro hmem'
          rcases q3 _ hmem' with hmem2 | ⟨r', hr', i, hi', hid⟩
          · exact hu2 hmem2
          · exact hnotpost (hid ▸ mem_resIdsOf_of_inst post r' i hr' hi')
        rcases q7 _ hmem with hmem2 | hmem'
        · rw [hevs2] at hmem2
          rcases p7 _ hmem2 with hmem0 | hmem1
          · simp [untaggedIdsOf] at hmem0
          · exact hu1 hmem1
        · exact hu' hmem'

/-- Claim C2, counterexample to the frozen wording.  In a reservation
whose second instance carries `NoShutdown`, the code appends the *lead*
instance's id (here already classified into `action_required` by the
first instance's half-day tag), so the tagged instance's own id `"i-2"`
appears in no list at all - and the lead id ends up in both lists. -/
theorem C2_counterexample :
    categorise_instances (some ⟨[⟨[⟨"i-1", some [⟨"Schedule", "12x5"⟩]⟩,
        ⟨"i-2", some [⟨"NoShutdown", ""⟩]⟩]⟩]⟩) cfgStd =
      ([], some (["i-1"], ["i-1"])) ∧
    "i-2" ∉ ((categorise_instances (some ⟨[⟨[⟨"i-1", some [⟨"Schedule", "12x5"⟩]⟩,
        ⟨"i-2", some [⟨"NoShutdown", ""⟩]⟩]⟩]⟩) cfgStd).2.getD ([], [])).2 := by
  refine ⟨by decide, by decide⟩

/-- A snapshot whose only reservation's lead instance carries both
`NoShutdown` and a half-day `Schedule` tag. -/
def snapNoShut : Snapshot :=
  ⟨[⟨[⟨"i-1", some [⟨"NoShutdown", ""⟩, ⟨"Schedule", "12x5"⟩]⟩]⟩]⟩

/-- Witness for the amended C2 theorem: the NoShutdown lead instance is
classified into `no_action_required` only, despite its half-day tag. -/
theorem C2_amended_witness :
    leadId ⟨[⟨"i-1", some [⟨"NoShutdown", ""⟩, ⟨"Schedule", "12x5"⟩]⟩]⟩ ∈ ["i-1"] ∧
    leadId ⟨[⟨"i-1", some [⟨"NoShutdown", ""⟩, ⟨"Schedule", "12x5"⟩]⟩]⟩ ∉ ([] : List String) ∧
    leadId ⟨[⟨"i-1", some [⟨"NoShutdown", ""⟩, ⟨"Schedule", "12x5"⟩]⟩]⟩ ∉
      untaggedIdsOf ([] : List Ev) :=
  C2_amended_noshutdown_lead snapNoShut cfgStd []
    [] ⟨[⟨"i-1", some [⟨"NoShutdown", ""⟩, ⟨"Schedule", "12x5"⟩]⟩]⟩
    ⟨"i-1", some [⟨"NoShutdown", ""⟩, ⟨"Schedule", "12x5"⟩]⟩
    [⟨"NoShutdown", ""⟩, ⟨"Schedule", "12x5"⟩]
    rfl rfl rfl (by decide) (by intro r hr i hi; fin_cases hr; fin_cases hi; simp)
    (by decide) [] [] ["i-1"] (by decide)

/-! ### Claim C8 -/

/-- Claim C8, amended.  Every identifier in `action_required` or
`no_action_required` is the *lead* instance id of some (non-empty)
reservation, and every id submitted to an untagged-stop call is the own
id of some instance of the snapshot.  However, it is not only the lead
instance's tags that are inspected: every instance's tags take part in
classification (see the counterexample), with the accumulated key list
deciding the branch. -/
theorem C8_amended_lead_ids (snap : Snapshot) (cfg : Config)
    (evs : List Ev) (a n : List String)
    (hrun : categorise_instances (some snap) cfg = (evs, some (a, n))) :
    (∀ x ∈ a, ∃ r ∈ snap.reservations, r.instances ≠ [] ∧ x = leadId r) ∧
    (∀ x ∈ n, ∃ r ∈ snap.reservations, r.instances ≠ [] ∧ x = leadId r) ∧
    (∀ x ∈ untaggedIdsOf evs, ∃ r ∈ snap.reservations, ∃ i ∈ r.instances,
      x = i.instanceId) := by
  obtain ⟨st', hres, hevs, ha, hn⟩ := categorise_instances_some_inv snap cfg evs a n hrun
  obtain ⟨c1, c2, c3, _c4, _c5, _c6, c7⟩ := resLoop_facts cfg snap.reservations _ _ hres
  refine ⟨?_, ?_, ?_⟩
  · intro x hx
    rcases c1 x (ha ▸ hx) with hx' | hx'
    · simp at hx'
    · exact hx'
  · intro x hx
    rcases c2 x (hn ▸ hx) with hx' | hx'
    · simp at hx'
    · exact hx'
  · intro x hx
    rcases c7 x (hevs ▸ hx) with hx' | hx'
    · simp [untaggedIdsOf] at hx'
    · rcases c3 x hx' with hx'' | hx''
      · simp at hx''
      · exact hx''

/-- Claim C8, counterexample to the frozen wording.  Two snapshots
identical except for the *second* instance's tags classify differently:
with `Schedule = "12x5"` on the second instance the lead id `"i-1"` lands
in `action_required`; with no tags on the second instance nothing is
classified.  So the classifier inspects more than the lead instance's
tags. -/
theorem C8_counterexample :
    categorise_instances (some ⟨[⟨[⟨"i-1", some [⟨"Name", ""⟩]⟩,
        ⟨"i-2", some [⟨"Schedule", "12x5"⟩]⟩]⟩]⟩) cfgStd = ([], some (["i-1"], [])) ∧
    categorise_instances (some ⟨[⟨[⟨"i-1", some [⟨"Name", ""⟩]⟩,
        ⟨"i-2", some []⟩]⟩]⟩) cfgStd = ([], some ([], [])) := by
  refine ⟨by decide, by decide⟩

/-- A two-instance reservation whose second instance carries the half-day
tag, plus an untagged-stopping configuration, for the C8 witness. -/
def snapTwo : Snapshot :=
  ⟨[⟨[⟨"i-1", some [⟨"Name", ""⟩]⟩, ⟨"i-2", some [⟨"Schedule", "12x5"⟩]⟩]⟩]⟩

/-- Witness for the amended C8 theorem: in `snapTwo` the classified id
`"i-1"` is the lead id of its reservation. -/
theorem C8_amended_witness :
    ∃ r ∈ snapTwo.reservations, r.instances ≠ [] ∧ "i-1" = leadId r :=
  (C8_amended_lead_ids snapTwo cfgStd [] ["i-1"] [] (by decide)).1 "i-1" (by decide)

/-! ### Claim C4 -/

/-- Pairwise exclusivity of the three collections of one pass. -/
def Excl (A N U : List String) : Prop :=
  ∀ x, ¬(x ∈ A ∧ x ∈ N) ∧ ¬(x ∈ A ∧ x ∈ U) ∧ ¬(x ∈ N ∧ x ∈ U)

theorem Excl.extendA {A N U : List String} {y : String}
    (h : Excl A N U) (hyN : y ∉ N) (hyU : y ∉ U) : Excl (A ++ [y]) N U := by
  intro x
  obtain ⟨e1, e2, e3⟩ := h x
  refine ⟨?_, ?_, e3⟩
  · rintro ⟨hxA, hxN⟩
    rcases List.mem_append.mp hxA with hx | hx
    · exact e1 ⟨hx, hxN⟩
    · simp only [List.mem_singleton] at hx
      exact hyN (hx ▸ hxN)
  · rintro ⟨hxA, hxU⟩
    rcases List.mem_append.mp hxA with hx | hx
    · exact e2 ⟨hx, hxU⟩
    · simp only [List.mem_singleton] at hx
      exact hyU (hx ▸ hxU)

theorem Excl.extendN {A N U : List String} {y : String}
    (h : Excl A N U) (hyA : y ∉ A) (hyU : y ∉ U) : Excl A (N ++ [y]) U := by
  intro x
  obtain ⟨e1, e2, e3⟩ := h x
  refine ⟨?_, e2, ?_⟩
  · rintro ⟨hxA, hxN⟩
    rcases List.mem_append.mp hxN with hx | hx
    · exact e1 ⟨hxA, hx⟩
    · simp only [List.mem_singleton] at hx
      exact hyA (hx ▸ hxA)
  · rintro ⟨hxN, hxU⟩
    rcases List.mem_append.mp hxN with hx | hx
    · exact e3 ⟨hx, hxU⟩
    · simp only [List.mem_singleton] at hx
      exact hyU (hx ▸ hxU)

theorem Excl.extendU {A N U : List String} {y : String}
    (h : Excl A N U) (hyA : y ∉ A) (hyN : y ∉ N) : Excl A N (U ++ [y]) := by
  intro x
  obtain ⟨e1, e2, e3⟩ := h x
  refine ⟨e1, ?_, ?_⟩
  · rintro ⟨hxA, hxU⟩
    rcases List.mem_append.mp hxU with hx | hx
    · exact e2 ⟨hxA, hx⟩
    · simp only [List.mem_singleton] at hx
      exact hyA (hx ▸ hxA)
  · rintro ⟨hxN, hxU⟩
    rcases List.mem_append.mp hxU with hx | hx
    · exact e3 ⟨hxN, hx⟩
    · simp only [List.mem_singleton] at hx
      exact hyN (hx ▸ hxN)

/-- Running the reservation loop over single-instance reservations, each
with at most one Schedule-keyed tag and with pairwise distinct ids,
preserves exclusivity of the three collections, and keeps every
untagged-payload id inside the untagged list. -/
theorem resLoop_singletons_excl (cfg : Config) :
    ∀ (rs : List Reservation) (st st' : CatSt),
    (∀ r ∈ rs, ∃ i ts, r.instances = [i] ∧ i.tags = some ts ∧
      ts.countP (fun t => pyInStr "Schedule" t.key) ≤ 1) →
    (resIdsOf rs).Nodup →
    (∀ x ∈ resIdsOf rs, x ∉ st.action ∧ x ∉ st.noAction ∧ x ∉ st.untagged) →
    Excl st.action st.noAction st.untagged →
    (∀ x ∈ untaggedIdsOf st.evs, x ∈ st.untagged) →
    resLoop cfg rs st = .ok st' →
    Excl st'.action st'.noAction st'.untagged ∧
    (∀ x ∈ untaggedIdsOf st'.evs, x ∈ st'.untagged) := by
  intro rs
  induction rs with
  | nil =>
    intro st st' _ _ _ hexcl hpay hres
    rw [resLoop_nil] at hres
    simp only [Except.ok.injEq] at hres
    subst hres
    exact ⟨hexcl, hpay⟩
  | cons r rs ih =>
    intro st st' hsingle hnd hdisj hexcl hpay hres
    obtain ⟨i, ts, hinsts, htags, hcnt⟩ := hsingle r (by simp)
    have hsingle' : ∀ r' ∈ rs, ∃ i ts, r'.instances = [i] ∧ i.tags = some ts ∧
        ts.countP (fun t => pyInStr "Schedule" t.key) ≤ 1 :=
      fun r' hr' => hsingle r' (by simp [hr'])
    have hrid : resIdsOf (r :: rs) = reservIds r ++ resIdsOf rs := by simp [resIdsOf]
    have hndparts := List.nodup_append.mp (hrid ▸ hnd)
    have hiid : reservIds r = [i.instanceId] := by simp [reservIds, hinsts]
    have hihead : i.instanceId ∈ resIdsOf (r :: rs) := by
      rw [hrid, hiid]; simp
    obtain ⟨hiA, hiN, hiU⟩ := hdisj i.instanceId hihead
    have hfreshtail : i.instanceId ∉ resIdsOf rs := by
      intro hmem
      exact List.disjoint_left.mp hndparts.2.2 (by rw [hiid]; simp) hmem
    have hlead : leadId r = i.instanceId := by simp [leadId, hinsts]
    obtain ⟨st1, hstep, hcases⟩ := instLoop_singleton cfg i ts st htags hcnt
    have hstep' : instLoop cfg (leadId r) r.instances [] st = .ok ([] ++ ts.map Tag.key, st1) := by
      rw [hinsts, hlead]; exact hstep
    rw [resLoop_cons_ok cfg r rs st _ _ hstep'] at hres
    have htail : ∀ x ∈ resIdsOf rs, x ∈ resIdsOf (r :: rs) := by
      intro x hx
      rw [hrid]
      exact List.mem_append_right _ hx
    have hxne : ∀ x ∈ resIdsOf rs, x ≠ i.instanceId := by
      intro x hx hxe
      exact hfreshtail (hxe ▸ hx)
    rcases hcases with hc | hc | hc | hc
    · rw [hc] at hres
      exact ih st st' hsingle' hndparts.2.1
        (fun x hx => hdisj x (htail x hx)) hexcl hpay hres
    · rw [hc] at hres
      refine ih _ st' hsingle' hndparts.2.1 ?_ ?_ ?_ hres
      · intro x hx
        obtain ⟨hA, hN, hU⟩ := hdisj x (htail x hx)
        refine ⟨?_, hN, hU⟩
        simp only [List.mem_append, List.mem_singleton]
        rintro (h | h)
        · exact hA h
        · exact hxne x hx h
      · exact hexcl.extendA hiN hiU
      · exact hpay
    · rw [hc] at hres
      refine ih _ st' hsingle' hndparts.2.1 ?_ ?_ ?_ hres
      · intro x hx
        obtain ⟨hA, hN, hU⟩ := hdisj x (htail x hx)
        refine ⟨hA, ?_, hU⟩
        simp only [List.mem_append, List.mem_singleton]
        rintro (h | h)
        · exact hN h
        · exact hxne x hx h
      · exact hexcl.extendN hiA hiU
      · exact hpay
    · rw [hc] at hres
      refine ih _ st' hsingle' hndparts.2.1 ?_ ?_ ?_ hres
      · intro x hx
        obtain ⟨hA, hN, hU⟩ := hdisj x (htail x hx)
        refine ⟨hA, hN, ?_⟩
        simp only [List.mem_append, List.mem_singleton]
        rintro (h | h)
        · exact hU h
        · exact hxne x hx h
      · exact hexcl.extendU hiA hiN
      · intro x hx
        rw [untaggedIdsOf_append] at hx
        rcases List.mem_append.mp hx with hx' | hx'
        · exact List.mem_append_left _ (hpay x hx')
        · simpa [untaggedIdsOf, evUntaggedIds] using hx'

/-- Claim C4, amended.  For snapshots of single-instance reservations in
which each instance has at most one tag with a Schedule-containing key
and instance ids are pairwise distinct, each identifier lands in at most
one of `action_required`, `no_action_required` and the untagged-stop
payloads.  (With several instances per reservation, or several
Schedule-keyed tags on one instance, the code puts one id in two
collections - see the counterexample.) -/
theorem C4_amended_at_most_one (snap : Snapshot) (cfg : Config)
    (hsingle : ∀ r ∈ snap.reservations, ∃ i ts, r.instances = [i] ∧ i.tags = some ts ∧
      ts.countP (fun t => pyInStr "Schedule" t.key) ≤ 1)
    (hnd : (snapIds snap).Nodup)
    (evs : List Ev) (a n : List String)
    (hrun : categorise_instances (some snap) cfg = (evs, some (a, n))) :
    ∀ x, ¬(x ∈ a ∧ x ∈ n) ∧ ¬(x ∈ a ∧ x ∈ untaggedIdsOf evs) ∧
      ¬(x ∈ n ∧ x ∈ untaggedIdsOf evs) := by
  obtain ⟨st', hres, hevs, ha, hn⟩ := categorise_instances_some_inv snap cfg evs a n hrun
  obtain ⟨hex', hpay'⟩ := resLoop_singletons_excl cfg snap.reservations ⟨[], [], [], []⟩ st'
    hsingle (snapIds_eq_resIdsOf snap ▸ hnd) (by intro x _; simp)
    (by intro x; simp) (by intro x hx; simp [untaggedIdsOf] at hx) hres
  intro x
  obtain ⟨e1, e2, e3⟩ := hex' x
  refine ⟨?_, ?_, ?_⟩
  · rintro ⟨hxa, hxn⟩
    exact e1 ⟨ha ▸ hxa, hn ▸ hxn⟩
  · rintro ⟨hxa, hxu⟩
    exact e2 ⟨ha ▸ hxa, hpay' x (hevs ▸ hxu)⟩
  · rintro ⟨hxn, hxu⟩
    exact e3 ⟨hn ▸ hxn, hpay' x (hevs ▸ hxu)⟩

/-- Claim C4, counterexample to the frozen wording.  One instance with the
tags `Schedule = "12x5"` and `ScheduleB = "24x7"` is placed in both
`action_required` and `no_action_required` in the same pass. -/
theorem C4_counterexample :
    categorise_instances (some ⟨[⟨[⟨"i-1",
        some [⟨"Schedule", "12x5"⟩, ⟨"ScheduleB", "24x7"⟩]⟩]⟩]⟩) cfgStd =
      ([], some (["i-1"], ["i-1"])) ∧
    "i-1" ∈ ((categorise_instances (some ⟨[⟨[⟨"i-1",
        some [⟨"Schedule", "12x5"⟩, ⟨"ScheduleB", "24x7"⟩]⟩]⟩]⟩) cfgStd).2.getD
      ([], [])).1 ∧
    "i-1" ∈ ((categorise_instances (some ⟨[⟨[⟨"i-1",
        some [⟨"Schedule", "12x5"⟩, ⟨"ScheduleB", "24x7"⟩]⟩]⟩]⟩) cfgStd).2.getD
      ([], [])).2 := by
  refine ⟨by decide, by decide, by decide⟩

/-- A well-formed snapshot: three singleton reservations, one per branch. -/
def snapThree : Snapshot :=
  ⟨[⟨[⟨"i-1", some [⟨"Schedule", "12x5"⟩]⟩]⟩,
    ⟨[⟨"i-2", some [⟨"NoShutdown", ""⟩]⟩]⟩,
    ⟨[⟨"i-3", some []⟩]⟩]⟩

/-- Witness for the amended C4 theorem on `snapThree` with untagged
stopping enabled: `"i-1"` is started, `"i-2"` spared, `"i-3"` stopped as
untagged, and no id sits in two collections. -/
theorem C4_amended_witness :
    ¬("i-1" ∈ ["i-1"] ∧ "i-1" ∈ ["i-2"]) ∧
    ¬("i-1" ∈ ["i-1"] ∧ "i-1" ∈ untaggedIdsOf [Ev.untaggedStopCall ["i-3"]]) ∧
    ¬("i-1" ∈ ["i-2"] ∧ "i-1" ∈ untaggedIdsOf [Ev.untaggedStopCall ["i-3"]]) :=
  C4_amended_at_most_one snapThree cfgTrue
    (by
      intro r hr
      fin_cases hr
      · exact ⟨_, _, rfl, rfl, by decide⟩
      · exact ⟨_, _, rfl, rfl, by decide⟩
      · exact ⟨_, _, rfl, rfl, by decide⟩)
    (by decide) [Ev.untaggedStopCall ["i-3"]] ["i-1"] ["i-2"] (by decide) "i-1"

end Ec2StartStop
